import Mathlib

/-!
Verification development for the filing content extraction and summarization
pipeline (content worker, extractors, summary generators).

Python values are shallowly embedded: floats are extended rationals with
explicit NaN and infinities, nullable values are Option, duck typed upstream
objects become structures of optional fields, the ORM session becomes an
explicit store plus a pending write list with an explicit commit log.
-/

/-- Python float: a finite rational or one of the special values. -/
inductive PyFloat where
  | fin (q : ℚ)
  | nan
  | inf
  | ninf
deriving DecidableEq, Repr

/-- Python truthiness of a float: zero is falsy, NaN and infinities are truthy. -/
def pyTruthy : PyFloat → Bool
  | .fin q => q ≠ 0
  | _ => true

/-- Python abs on a float. -/
def pyAbs : PyFloat → PyFloat
  | .fin q => .fin |q|
  | .nan => .nan
  | .inf => .inf
  | .ninf => .inf

/-- Comparison x > c for a float x and a finite rational c: NaN compares false. -/
def pyGt (x : PyFloat) (c : ℚ) : Bool :=
  match x with
  | .fin q => q > c
  | .inf => true
  | .nan => false
  | .ninf => false

/-- Comparison x < c: NaN compares false. -/
def pyLt (x : PyFloat) (c : ℚ) : Bool :=
  match x with
  | .fin q => q < c
  | .inf => false
  | .nan => false
  | .ninf => true

/-- Python equality test x == 0 (NaN and infinities are never equal to 0). -/
def pyEqZero : PyFloat → Bool
  | .fin q => q = 0
  | _ => false

/-- Python float multiplication with IEEE sign rules for the special values. -/
def pyMul : PyFloat → PyFloat → PyFloat
  | .fin a, .fin b => .fin (a * b)
  | .nan, _ => .nan
  | _, .nan => .nan
  | .inf, .fin b => if b > 0 then .inf else if b < 0 then .ninf else .nan
  | .ninf, .fin b => if b > 0 then .ninf else if b < 0 then .inf else .nan
  | .fin a, .inf => if a > 0 then .inf else if a < 0 then .ninf else .nan
  | .fin a, .ninf => if a > 0 then .ninf else if a < 0 then .inf else .nan
  | .inf, .inf => .inf
  | .inf, .ninf => .ninf
  | .ninf, .inf => .ninf
  | .ninf, .ninf => .inf

/-- Division of a float by a positive finite rational constant. -/
def pyDivPos (x : PyFloat) (c : ℚ) : PyFloat :=
  match x with
  | .fin q => .fin (q / c)
  | .nan => .nan
  | .inf => .inf
  | .ninf => .ninf

/-- Floor of a rational as an integer, by flooring division. -/
def ratFloor (q : ℚ) : ℤ := Int.fdiv q.num q.den

/-- Truncation toward zero, as the Python int() builtin does on a finite float. -/
def ratTrunc (q : ℚ) : ℤ :=
  if q ≥ 0 then ratFloor q else -ratFloor (-q)

/-- Truthiness of an optional float: None is falsy, otherwise float truthiness. -/
def optTruthy : Option PyFloat → Bool
  | none => false
  | some x => pyTruthy x

/-- Truthiness of an optional string: None and the empty string are falsy. -/
def strOptTruthy : Option String → Bool
  | none => false
  | some s => s ≠ ""

/-- Lower case a string character by character. -/
def lowerStr (s : String) : String := ⟨s.data.map Char.toLower⟩

/-- Upper case a string character by character. -/
def upperStr (s : String) : String := ⟨s.data.map Char.toUpper⟩

/-- Whether the character list pat occurs as a contiguous sublist of the haystack. -/
def hasSubList (pat : List Char) : List Char → Bool
  | [] => pat.isEmpty
  | c :: t => pat.isPrefixOf (c :: t) || hasSubList pat t

/-- Case insensitive substring test, as pandas str.contains with case=False. -/
def containsCI (hay pat : String) : Bool :=
  hasSubList (lowerStr pat).data (lowerStr hay).data

/-- Strip leading and trailing whitespace, as the Python str.strip method. -/
def stripStr (s : String) : String :=
  ⟨((s.data.dropWhile Char.isWhitespace).reverse.dropWhile Char.isWhitespace).reverse⟩

/-- Python str.isdigit restricted to ASCII digits: nonempty and all digits. -/
def isDigitStr (s : String) : Bool :=
  s ≠ "" && s.data.all Char.isDigit

/-- A cell value as it can appear in a pandas data frame or as an attribute. -/
inductive PyVal where
  | vNone
  | vInt (n : ℤ)
  | vFloat (x : PyFloat)
  | vStr (s : String)
deriving DecidableEq, Repr

/-- Round half to even on rationals, as Python float formatting rounds. -/
def roundHalfEven (q : ℚ) : ℤ :=
  let f : ℤ := ratFloor q
  let frac : ℚ := q - f
  if frac < 1/2 then f
  else if frac > 1/2 then f + 1
  else if f % 2 = 0 then f else f + 1

/-- Left pad a string with zeros to the given length. -/
def zfill (d : ℕ) (s : String) : String :=
  ⟨List.replicate (d - s.length) '0' ++ s.data⟩

/-- Fixed point rendering of a rational with d decimal places, Python style. -/
def formatFixed (d : ℕ) (q : ℚ) : String :=
  let scaled : ℤ := roundHalfEven (q * (10 : ℚ) ^ d)
  let a : ℕ := scaled.natAbs
  let ip : ℕ := a / 10 ^ d
  let fp : ℕ := a % 10 ^ d
  (if scaled < 0 then "-" else "") ++ toString ip ++
    (if d = 0 then "" else "." ++ zfill d (toString fp))

/-- Fixed point rendering of a Python float; NaN and infinities render as text. -/
def formatPyFixed (d : ℕ) : PyFloat → String
  | .fin q => formatFixed d q
  | .nan => "nan"
  | .inf => "inf"
  | .ninf => "-inf"

/-- Insert comma separators every three digits, as the Python format spec comma. -/
def commaGroupRev : List Char → List Char
  | a :: b :: c :: d :: rest => a :: b :: c :: ',' :: commaGroupRev (d :: rest)
  | l => l

/-- Render an integer with thousands separators. -/
def commaFormat (n : ℤ) : String :=
  let digits := (toString n.natAbs).data
  (if n < 0 then "-" else "") ++ ⟨(commaGroupRev digits.reverse).reverse⟩

/-!
Embedding of app/workers/content_processing/utils.py.
-/

/-- Python float() applied to a string: sign, digits, decimal point, exponent,
or the inf and nan spellings; None when the call would raise ValueError. -/
def parseDigitsAcc (acc : ℕ) (cnt : ℕ) : List Char → (ℕ × ℕ × List Char)
  | [] => (acc, cnt, [])
  | c :: t =>
    if c.isDigit then parseDigitsAcc (acc * 10 + (c.toNat - '0'.toNat)) (cnt + 1) t
    else (acc, cnt, c :: t)

/-- Parse an optional exponent part of a float literal. -/
def parseExponent : List Char → Option ℤ
  | [] => some 0
  | 'e' :: t | 'E' :: t =>
    let (sgn, t2) : ℤ × List Char :=
      match t with
      | '+' :: r => (1, r)
      | '-' :: r => (-1, r)
      | r => (1, r)
    let (v, c, rest) := parseDigitsAcc 0 0 t2
    if c = 0 ∨ rest ≠ [] then none else some (sgn * v)
  | _ => none

/-- Parse the unsigned body of a float literal into a rational. -/
def parseFloatBody (l : List Char) : Option ℚ :=
  let (ip, ic, r1) := parseDigitsAcc 0 0 l
  let (fp, fc, r2) :=
    match r1 with
    | '.' :: t => parseDigitsAcc 0 0 t
    | _ => (0, 0, r1)
  if ic = 0 ∧ fc = 0 then none
  else
    match parseExponent r2 with
    | none => none
    | some e =>
      let base : ℚ := (ip : ℚ) + (fp : ℚ) / (10 : ℚ) ^ fc
      some (base * (10 : ℚ) ^ e)

/-- Python float() on a string. -/
def pyFloatOfString (s : String) : Option PyFloat :=
  let t := stripStr s
  let (neg, body) : Bool × List Char :=
    match t.data with
    | '+' :: r => (false, r)
    | '-' :: r => (true, r)
    | r => (false, r)
  let low := lowerStr ⟨body⟩
  if low = "inf" ∨ low = "infinity" then some (if neg then .ninf else .inf)
  else if low = "nan" then some .nan
  else
    match parseFloatBody body with
    | none => none
    | some q => some (.fin (if neg then -q else q))

/-- Python float() on an arbitrary cell value; None models a raised error. -/
def pyFloatCoerce : PyVal → Option PyFloat
  | .vNone => none
  | .vInt n => some (.fin n)
  | .vFloat x => some x
  | .vStr s => pyFloatOfString s

/-- Source is_valid_numeric_value: None and the empty string are invalid, any
int or float (including NaN and infinities) is valid, and a string is valid
when, after stripping and dropping periods, hyphens and the letters e and E,
only digits remain. -/
def is_valid_numeric_value : PyVal → Bool
  | .vNone => false
  | .vInt _ => true
  | .vFloat _ => true
  | .vStr s =>
    if s = "" then false
    else
      let cleaned : String :=
        ⟨(stripStr s).data.filter (fun c => c ∉ ['.', '-', 'e', 'E'])⟩
      isDigitStr cleaned

/-- One row of a statement data frame: the label column plus the other cells. -/
structure DFRow where
  label : String
  cells : List (String × PyVal)
deriving DecidableEq, Repr

/-- A statement data frame: its column names and its rows. -/
structure DataFrame where
  columns : List String
  rows : List DFRow
deriving DecidableEq, Repr

/-- Cell lookup in a row; None models a KeyError. -/
def lookupCell (r : DFRow) (c : String) : Option PyVal :=
  (r.cells.find? (fun p => p.1 = c)).map (fun p => p.2)

/-- Whether a column holds at least one valid numeric observation; a missing
cell raises inside the source loop, which drops the column. -/
def columnHasNumeric (c : String) : List DFRow → Bool
  | [] => false
  | r :: rest =>
    match lookupCell r c with
    | none => false
    | some v => if is_valid_numeric_value v then true else columnHasNumeric c rest

/-- Source get_numeric_columns: columns other than the meta columns that hold
at least one valid numeric observation. -/
def get_numeric_columns (df : DataFrame) : List String :=
  df.columns.filter (fun c =>
    c ∉ ["label", "concept", "level", "abstract", "dimension"] &&
      columnHasNumeric c df.rows)

/-- Latest column: maximum under string order, as sorted()[-1] in the source. -/
def latestColumn : List String → Option String
  | [] => none
  | c :: rest =>
    match latestColumn rest with
    | none => some c
    | some m => some (if c < m then m else c)

/-- First valid value of the target column over the given rows; a missing cell
raises inside the source loop, which makes the whole lookup return None. -/
def rowsFirstValid (col : String) : List DFRow → Option PyVal
  | [] => none
  | r :: rest =>
    match lookupCell r col with
    | none => none
    | some v => if is_valid_numeric_value v then some v else rowsFirstValid col rest

/-- Source get_latest_numeric_value. -/
def get_latest_numeric_value (df : DataFrame) (rows : List DFRow) : Option PyVal :=
  match latestColumn (get_numeric_columns df) with
  | none => none
  | some col => rowsFirstValid col rows

/-- Source extract_metric: try each label synonym in order; rows are matched by
case insensitive substring on the label column; a failing float() coercion is
swallowed and the next label is tried. -/
def extract_metric (df : DataFrame) : List String → Option PyFloat
  | [] => none
  | label :: rest =>
    let rows := df.rows.filter (fun r => containsCI r.label label)
    if rows.isEmpty then extract_metric df rest
    else
      match get_latest_numeric_value df rows with
      | none => extract_metric df rest
      | some v =>
        match pyFloatCoerce v with
        | none => extract_metric df rest
        | some x => some x

/-- Source safe_float_conversion restricted to float or None input. -/
def safe_float_conversion : Option PyFloat → Option PyFloat
  | none => none
  | some x => some x

/-- Source safe_int_conversion on float or None input: int(float(x)) truncates
toward zero and raises on NaN and infinities. -/
def safe_int_conversion : Option PyFloat → Option ℤ
  | none => none
  | some (.fin q) => some (ratTrunc q)
  | some _ => none

/-!
Data model of app/models: the filing row and the four content records. Dates
carry only their rendered day string, which is all the pipeline reads.
-/

/-- A datetime value, identified by its year-month-day rendering. -/
structure PyDateTime where
  ymd : String
deriving DecidableEq, Repr

/-- EdgarFiling row restricted to the fields the pipeline touches. -/
structure FilingRec where
  id : ℕ
  cik : String
  form : String
  accession : String
  filing_date : PyDateTime
  is_processed : Bool
  processed_at : Option PyDateTime
  processing_error : Option String
deriving DecidableEq, Repr

/-- FinancialMetrics row. -/
structure FinancialMetricsRec where
  id : ℕ
  filing_id : ℕ
  revenue : Option PyFloat
  net_income : Option PyFloat
  eps : Option PyFloat
  total_assets : Option PyFloat
  total_liabilities : Option PyFloat
  cash_and_equivalents : Option PyFloat
  operating_cash_flow : Option PyFloat
  extracted_at : Option PyDateTime
  extraction_error : Option String
deriving DecidableEq, Repr

/-- InsiderTransaction row. -/
structure InsiderTransactionRec where
  id : ℕ
  filing_id : ℕ
  insider_name : String
  insider_title : Option String
  insider_relationship : Option String
  transaction_type : String
  shares : ℤ
  price_per_share : Option PyFloat
  total_value : Option PyFloat
  transaction_date : PyDateTime
  is_large_transaction : Bool
  is_executive : Bool
  extracted_at : Option PyDateTime
  extraction_error : Option String
deriving DecidableEq, Repr

/-- CorporateEvent row. -/
structure CorporateEventRec where
  id : ℕ
  filing_id : ℕ
  event_type : String
  event_date : Option PyDateTime
  effective_date : Option PyDateTime
  title : Option String
  description : Option String
  is_material : Bool
  affects_operations : Bool
  affects_financials : Bool
  extracted_at : Option PyDateTime
  extraction_error : Option String
deriving DecidableEq, Repr

/-- A key metrics entry: the source dicts hold strings and one boolean. -/
inductive KMetric where
  | str (s : String)
  | boolean (b : Bool)
deriving DecidableEq, Repr

/-- FilingSummary row. -/
structure FilingSummaryRec where
  id : ℕ
  filing_id : ℕ
  headline : String
  summaryText : String
  impact_analysis : String
  importance_score : ℚ
  event_category : String
  sentiment : Option String
  key_metrics : List (String × KMetric)
  generated_at : Option PyDateTime
  model_version : Option String
deriving DecidableEq, Repr

/-- The transactional record store. -/
structure Store where
  filings : List FilingRec
  metrics : List FinancialMetricsRec
  transactions : List InsiderTransactionRec
  events : List CorporateEventRec
  summaries : List FilingSummaryRec
deriving DecidableEq, Repr

/-- One pending write of a unit of work. -/
inductive WriteOp where
  | addMetrics (m : FinancialMetricsRec)
  | addTransaction (t : InsiderTransactionRec)
  | deleteTransaction (i : ℕ)
  | addEvent (e : CorporateEventRec)
  | addSummary (r : FilingSummaryRec)
  | setProcessed (fid : ℕ) (now : PyDateTime)
  | setProcessingError (fid : ℕ) (msg : String)
deriving DecidableEq, Repr

/-- Apply one write to the store. -/
def applyOp (st : Store) : WriteOp → Store
  | .addMetrics m => { st with metrics := st.metrics ++ [m] }
  | .addTransaction t => { st with transactions := st.transactions ++ [t] }
  | .deleteTransaction i =>
    { st with transactions := st.transactions.filter (fun t => t.id ≠ i) }
  | .addEvent e => { st with events := st.events ++ [e] }
  | .addSummary r => { st with summaries := st.summaries ++ [r] }
  | .setProcessed fid now =>
    { st with filings := st.filings.map (fun f =>
        if f.id = fid then { f with is_processed := true, processed_at := some now } else f) }
  | .setProcessingError fid msg =>
    { st with filings := st.filings.map (fun f =>
        if f.id = fid then { f with processing_error := some msg } else f) }

/-- Apply a list of writes in order. -/
def applyWrites (st : Store) (ops : List WriteOp) : Store := ops.foldl applyOp st

/-- A write that touches only content records, never the filing row. -/
def IsRecordOp : WriteOp → Prop
  | .setProcessed _ _ => False
  | .setProcessingError _ _ => False
  | _ => True

instance : DecidablePred IsRecordOp := fun op => by
  cases op <;> simp [IsRecordOp] <;> infer_instance

/-- The ORM session: committed store, pending writes, commit log, id counter.
Every commit appends the flushed write list to the log, so atomicity of a run
is readable off the log. -/
structure Session where
  db : Store
  tx : List WriteOp
  commitLog : List (List WriteOp)
  nextId : ℕ
deriving DecidableEq, Repr

/-- The view a query sees: pending writes are flushed over the committed store. -/
def view (s : Session) : Store := applyWrites s.db s.tx

/-- session.commit(): apply pending writes and log them. -/
def sessCommit (s : Session) : Session :=
  { s with db := applyWrites s.db s.tx, tx := [], commitLog := s.commitLog ++ [s.tx] }

/-- session.rollback(): discard pending writes. -/
def sessRollback (s : Session) : Session := { s with tx := [] }

/-- Push one pending write. -/
def pushOp (s : Session) (op : WriteOp) : Session := { s with tx := s.tx ++ [op] }

/-- Push a list of pending writes, as a loop of session calls does. -/
def pushOps (s : Session) (l : List WriteOp) : Session := { s with tx := s.tx ++ l }

/-- Records of each table that belong to one filing. -/
def metricsFor (st : Store) (fid : ℕ) : List FinancialMetricsRec :=
  st.metrics.filter (fun m => m.filing_id = fid)

/-- Insider transactions of one filing. -/
def transactionsFor (st : Store) (fid : ℕ) : List InsiderTransactionRec :=
  st.transactions.filter (fun t => t.filing_id = fid)

/-- Corporate events of one filing. -/
def eventsFor (st : Store) (fid : ℕ) : List CorporateEventRec :=
  st.events.filter (fun e => e.filing_id = fid)

/-- Summaries of one filing. -/
def summariesFor (st : Store) (fid : ℕ) : List FilingSummaryRec :=
  st.summaries.filter (fun r => r.filing_id = fid)

/-- Filing lookup by primary key. -/
def findFiling (st : Store) (fid : ℕ) : Option FilingRec :=
  st.filings.find? (fun f => f.id = fid)

/-!
Models of the duck typed upstream objects the extractors probe. An Option
field stands for the attribute being absent or None, which the source treats
alike at every probe site.
-/

/-- The loosely typed financials accessor used by the metrics fallback path. -/
structure FinancialsObj where
  revenue : Option PyFloat
  net_income : Option PyFloat
  eps : Option PyFloat
  total_assets : Option PyFloat
  total_liabilities : Option PyFloat
  cash_and_equivalents : Option PyFloat
  operating_cash_flow : Option PyFloat
deriving DecidableEq, Repr

/-- One row of the market_trades trade table, columns read by alias. -/
structure TradeRow where
  shares : Option PyFloat
  price : Option PyFloat
  date : Option PyDateTime
  transactionType : Option String
  code : Option String
deriving DecidableEq, Repr

/-- One member of a reporting owners collection. -/
structure Owner where
  name : Option String
  title : Option String
deriving DecidableEq, Repr

/-- The reporting_owners attribute: a single object bearing name and title
attributes, or an indexable collection of owners. -/
inductive Owners where
  | single (name : Option String) (title : Option String)
  | many (l : List Owner)
deriving DecidableEq, Repr

/-- Python truthiness of an optional owners attribute; an empty collection is
falsy, a plain object is truthy. -/
def ownersTruthy : Option Owners → Bool
  | none => false
  | some (.single _ _) => true
  | some (.many l) => !l.isEmpty

/-- One row of the to_dataframe() export used as a fallback source. -/
structure DfRow4 where
  insider : Option String
  position : Option String
  shares : Option PyFloat
  price : Option PyFloat
  transactionTypeCol : Option String
  date : Option PyDateTime
deriving DecidableEq, Repr

/-- The to_dataframe() export: which columns exist, and the rows. -/
structure Df4 where
  insiderCol : Bool
  positionCol : Bool
  rows : List DfRow4
deriving DecidableEq, Repr

/-- The ownership form object returned by obj() on a Form 4 filing. -/
structure Form4 where
  insider_name : Option String
  position : Option String
  reporting_owner_name : Option String
  reporting_owner_relationship : Option String
  reporting_owners : Option Owners
  shares_traded : Option PyFloat
  market_trades : Option (List TradeRow)
  toDf : Option Df4
  reporting_period : Option PyDateTime
  filing_date : Option PyDateTime
deriving DecidableEq, Repr

/-- The generic event object returned by obj() on a material event filing. -/
structure EventsData where
  event_type : Option String
  typeAlias : Option String
  event_date : Option PyDateTime
  dateAlias : Option PyDateTime
  effective_date : Option PyDateTime
  effectiveAlias : Option PyDateTime
  title : Option String
  subject : Option String
  description : Option String
  summaryAlias : Option String
  is_material : Option Bool
  affects_operations : Option Bool
  affects_financials : Option Bool
deriving DecidableEq, Repr

/-- Result of calling obj() on an ownership filing: the object, or the message
of the raised error, which the insider path persists. -/
inductive Form4Result where
  | ok (f : Form4)
  | raised (msg : String)
deriving DecidableEq, Repr

/-- The filing handle returned by the gateway, one capability per extractor.
None on a capability means the corresponding accessor raises or is missing;
for the insider path the raised message is carried, since it is persisted. -/
structure TargetFiling where
  statements : Option (DataFrame × DataFrame × DataFrame)
  financialsObj : Option FinancialsObj
  form4obj : Form4Result
  eventsObj : Option EventsData
deriving DecidableEq, Repr

/-- The gateway environment of one run: company resolution, filing lookup, and
the filing handle. -/
structure Gateway where
  companyOk : Bool
  filingFound : Bool
  tf : TargetFiling
deriving DecidableEq, Repr

/-!
Embedding of financial_metrics_extractor.py.
-/

/-- Source _extract_metrics_from_xbrl: read the three statements and search
each fact by its label synonyms; None when the statements are unavailable. -/
def extract_metrics_from_xbrl (tf : TargetFiling) : Option FinancialMetricsRec :=
  match tf.statements with
  | none => none
  | some (income_df, balance_df, cash_flow_df) =>
    some
      { id := 0
        filing_id := 0
        revenue := extract_metric income_df ["Revenue", "Contract Revenue", "Sales Revenue"]
        net_income := extract_metric income_df ["Net Income", "Net Income Loss", "Profit Loss"]
        eps := extract_metric income_df
          ["Earnings Per Share Basic", "Earnings Per Share Diluted", "Earnings Per Share"]
        total_assets := extract_metric balance_df ["Total Assets", "Assets"]
        total_liabilities := extract_metric balance_df ["Total Liabilities", "Liabilities"]
        cash_and_equivalents := extract_metric balance_df
          ["Cash and Cash Equivalents", "Cash", "Cash Equivalents"]
        operating_cash_flow := extract_metric cash_flow_df
          ["Net Cash from Operating Activities", "Net Cash Provided by Operating Activities",
           "Cash Flows from Operating Activities"]
        extracted_at := none
        extraction_error := none }

/-- Source _extract_metrics_from_obj: direct attribute lookup on the generic
financials accessor; None when obj() fails or has no financials capability. -/
def extract_metrics_from_obj (tf : TargetFiling) : Option FinancialMetricsRec :=
  match tf.financialsObj with
  | none => none
  | some fo =>
    some
      { id := 0
        filing_id := 0
        revenue := fo.revenue
        net_income := fo.net_income
        eps := fo.eps
        total_assets := fo.total_assets
        total_liabilities := fo.total_liabilities
        cash_and_equivalents := fo.cash_and_equivalents
        operating_cash_flow := fo.operating_cash_flow
        extracted_at := none
        extraction_error := none }

/-- Source _create_empty_metrics: an all null placeholder with the error text. -/
def create_empty_metrics (s : Session) (fid : ℕ) (err : Option String)
    (now : PyDateTime) : Session :=
  let m : FinancialMetricsRec :=
    { id := s.nextId, filing_id := fid, revenue := none, net_income := none, eps := none
      total_assets := none, total_liabilities := none, cash_and_equivalents := none
      operating_cash_flow := none, extracted_at := some now, extraction_error := err }
  { pushOp s (.addMetrics m) with nextId := s.nextId + 1 }

/-- Source extract_financial_metrics: no op when a metrics record exists for
the filing; otherwise xbrl strategy, then obj fallback, then a placeholder. -/
def extract_financial_metrics (s : Session) (fid : ℕ) (tf : TargetFiling)
    (now : PyDateTime) : Session :=
  match (metricsFor (view s) fid).head? with
  | some _ => s
  | none =>
    let metrics :=
      match extract_metrics_from_xbrl tf with
      | some m => some m
      | none => extract_metrics_from_obj tf
    match metrics with
    | some m =>
      let m2 := { m with id := s.nextId, filing_id := fid, extracted_at := some now }
      { pushOp s (.addMetrics m2) with nextId := s.nextId + 1 }
    | none => create_empty_metrics s fid none now

/-!
Embedding of insider_transactions_extractor.py.
-/

/-- Plain substring test on already lowered text. -/
def inStr (needle hay : String) : Bool := hasSubList needle.data hay.data

/-- Source _determine_insider_relationship: keyword match on the lowered title,
else the uppercased title itself; None for a falsy title. -/
def determine_insider_relationship (position : Option String) : Option String :=
  match position with
  | none => none
  | some p =>
    if p = "" then none
    else
      let pl := lowerStr p
      if inStr "ceo" pl || inStr "chief executive" pl then some "CEO"
      else if inStr "cfo" pl || inStr "chief financial" pl then some "CFO"
      else if inStr "director" pl then some "DIRECTOR"
      else if inStr "president" pl then some "PRESIDENT"
      else if inStr "chairman" pl then some "CHAIRMAN"
      else some (upperStr p)

/-- The fixed transaction code table of _extract_transaction_data; any other
code maps to its own uppercase form. -/
def transactionTypeFromCode (code : String) : String :=
  if code = "P" then "PURCHASE"
  else if code = "S" then "SALE"
  else if code = "A" then "GRANT"
  else if code = "M" then "EXERCISE"
  else if code = "D" then "DISPOSITION"
  else if code = "G" then "GIFT"
  else if code = "V" then "VOLUNTARY"
  else upperStr code

/-- The dict returned by _extract_transaction_data. -/
structure TransactionData where
  transaction_type : String
  shares : ℤ
  price_per_share : Option PyFloat
  total_value : Option PyFloat
  transaction_date : Option PyDateTime
  is_large_transaction : Bool
  is_executive : Bool
deriving DecidableEq, Repr

/-- The five executive relationships of the is_executive flag. -/
def execRelationships : List String := ["CEO", "CFO", "DIRECTOR", "PRESIDENT", "CHAIRMAN"]

/-- The mutable locals of _extract_transaction_data while the candidate
sources are probed in order. -/
structure TxAcc where
  ttype : String
  shares : PyFloat
  price : Option PyFloat
  total : Option PyFloat
  tdate : Option PyDateTime
deriving DecidableEq, Repr

/-- Step one of _extract_transaction_data: shares_traded first, its sign
deciding purchase versus sale. -/
def txFromSharesTraded (f : Form4) (a : TxAcc) : TxAcc :=
  match f.shares_traded with
  | some st =>
    { a with shares := pyAbs st, ttype := if pyGt st 0 then "PURCHASE" else "SALE" }
  | none => a

/-- Step two of _extract_transaction_data: the first market_trades row, fields
taken only where still unset, the code table applied when the type is still
unknown, and the total derived from truthy shares and price. -/
def txFromMarketTrades (f : Form4) (a : TxAcc) : TxAcc :=
  match f.market_trades with
  | some (row :: _) =>
    let shares := if pyEqZero a.shares then pyAbs (row.shares.getD (.fin 0)) else a.shares
    let price := if !optTruthy a.price then row.price else a.price
    let tdate := if a.tdate = none then row.date else a.tdate
    let ttype :=
      if a.ttype = "UNKNOWN" then
        match row.transactionType with
        | some tt => if tt ≠ "" then upperStr tt else a.ttype
        | none => a.ttype
      else a.ttype
    let ttype :=
      if ttype = "UNKNOWN" then
        match row.code with
        | some c => if c ≠ "" then transactionTypeFromCode c else ttype
        | none => ttype
      else ttype
    let total :=
      match price with
      | some p => if pyTruthy shares && pyTruthy p then some (pyMul shares p) else a.total
      | none => a.total
    { ttype := ttype, shares := shares, price := price, total := total, tdate := tdate }
  | _ => a

/-- Step three of _extract_transaction_data: the to_dataframe export as a
fallback when shares or type are still unresolved. -/
def txFromDataframe (f : Form4) (a : TxAcc) : TxAcc :=
  if pyEqZero a.shares || a.ttype = "UNKNOWN" then
    match f.toDf with
    | some df =>
      match df.rows with
      | row :: _ =>
        let shares := if pyEqZero a.shares then pyAbs (row.shares.getD (.fin 0)) else a.shares
        let price := if !optTruthy a.price then row.price else a.price
        let ttype :=
          if a.ttype = "UNKNOWN" then
            match row.transactionTypeCol with
            | some tt => if tt ≠ "" then upperStr tt else a.ttype
            | none => a.ttype
          else a.ttype
        let tdate := if a.tdate = none then row.date else a.tdate
        let total :=
          match price with
          | some p => if pyTruthy shares && pyTruthy p then some (pyMul shares p) else a.total
          | none => a.total
        { ttype := ttype, shares := shares, price := price, total := total, tdate := tdate }
      | [] => a
    | none => a
  else a

/-- Step four of _extract_transaction_data: shares_traded as the final shares
fallback. -/
def txSharesFallback (f : Form4) (a : TxAcc) : TxAcc :=
  if pyEqZero a.shares then
    match f.shares_traded with
    | some st =>
      { a with
        shares := pyAbs st
        ttype :=
          if a.ttype = "UNKNOWN" then (if pyGt st 0 then "PURCHASE" else "SALE") else a.ttype }
    | none => a
  else a

/-- Date fallbacks of _extract_transaction_data: reporting period, then the
filing date. -/
def txDateFallback (f : Form4) (a : TxAcc) : TxAcc :=
  let tdate := if a.tdate = none then f.reporting_period else a.tdate
  let tdate := if tdate = none then f.filing_date else tdate
  { a with tdate := tdate }

/-- Ensure positive shares for sales, the sign fix of the source. -/
def txSaleAbs (a : TxAcc) : TxAcc :=
  if a.ttype = "SALE" && pyLt a.shares 0 then { a with shares := pyAbs a.shares } else a

/-- Source _extract_transaction_data: ordered fallback over shares_traded, the
market_trades table, the to_dataframe export, then date fallbacks, numeric
conversion and the derived significance flags. -/
def extract_transaction_data (f : Form4) (rel : Option String) : TransactionData :=
  let a : TxAcc := { ttype := "UNKNOWN", shares := .fin 0, price := none, total := none
                     tdate := none }
  let a := txFromSharesTraded f a
  let a := txFromMarketTrades f a
  let a := txFromDataframe f a
  let a := txSharesFallback f a
  let a := txDateFallback f a
  let a := txSaleAbs a
  -- convert and validate: int conversion with a zero default
  let sharesInt : ℤ := (safe_int_conversion (some a.shares)).getD 0
  let price := safe_float_conversion a.price
  let total := safe_float_conversion a.total
  -- derive total when shares and price are truthy and total is falsy
  let total :=
    if sharesInt ≠ 0 && optTruthy price && !optTruthy total then
      match price with
      | some p => some (pyMul (.fin (sharesInt : ℚ)) p)
      | none => total
    else total
  let is_large :=
    (match total with
     | some v => pyTruthy v && pyGt v 100000
     | none => false) ||
    (decide (sharesInt ≠ 0) && decide (sharesInt > 10000))
  let is_exec :=
    match rel with
    | some r => if r ≠ "" then execRelationships.contains r else false
    | none => false
  { transaction_type := a.ttype
    shares := sharesInt
    price_per_share := price
    total_value := total
    transaction_date := a.tdate
    is_large_transaction := is_large
    is_executive := is_exec }

/-- Identity resolution chain of extract_insider_transactions: direct fields,
legacy fields, the reporting owners collection, then the data frame export. -/
def resolveInsiderIdentity (f : Form4) : Option String × Option String :=
  let name := f.insider_name
  let title := f.position
  let name := if !strOptTruthy name then f.reporting_owner_name else name
  let title := if !strOptTruthy title then f.reporting_owner_relationship else title
  let name :=
    if !strOptTruthy name && ownersTruthy f.reporting_owners then
      match f.reporting_owners with
      | some (.single n _) => (match n with | some v => some v | none => name)
      | some (.many (o :: _)) => (match o.name with | some v => some v | none => name)
      | _ => name
    else name
  let title :=
    if !strOptTruthy title && ownersTruthy f.reporting_owners then
      match f.reporting_owners with
      | some (.single _ t) => (match t with | some v => some v | none => title)
      | some (.many (o :: _)) => (match o.title with | some v => some v | none => title)
      | _ => title
    else title
  if !strOptTruthy name || !strOptTruthy title then
    match f.toDf with
    | some df =>
      let name :=
        if !strOptTruthy name && df.insiderCol then
          match df.rows with
          | r :: _ => r.insider
          | [] => none
        else name
      let title :=
        if !strOptTruthy title && df.positionCol then
          match df.rows with
          | r :: _ => r.position
          | [] => none
        else title
      (name, title)
    | none => (name, title)
  else (name, title)

/-- Add one transaction record and commit, as the success and placeholder
paths of the extractor both do. -/
def persistInsiderTransaction (s : Session) (t : InsiderTransactionRec) : Session :=
  sessCommit { pushOp s (.addTransaction t) with nextId := s.nextId + 1 }

/-- The placeholder record of _create_empty_transaction. -/
def emptyInsiderRecord (nid fid : ℕ) (err : String) (now : PyDateTime) : InsiderTransactionRec :=
  { id := nid, filing_id := fid, insider_name := "Unknown", insider_title := none
    insider_relationship := none, transaction_type := "UNKNOWN", shares := 0
    price_per_share := none, total_value := none, transaction_date := now
    is_large_transaction := false, is_executive := false, extracted_at := some now
    extraction_error := some err }

/-- Source _create_empty_transaction: persist the placeholder record. -/
def create_empty_transaction (s : Session) (fid : ℕ) (err : String)
    (now : PyDateTime) : Session :=
  persistInsiderTransaction s (emptyInsiderRecord s.nextId fid err now)

/-- The record persisted when the extracted data passes the validity gate. -/
def validInsiderRecord (nid fid : ℕ) (nameOpt titleOpt rel : Option String)
    (td : TransactionData) (now : PyDateTime) : InsiderTransactionRec :=
  { id := nid
    filing_id := fid
    insider_name :=
      match nameOpt with
      | some n => if n ≠ "" then n else "Unknown"
      | none => "Unknown"
    insider_title := if strOptTruthy titleOpt then titleOpt else none
    insider_relationship := if strOptTruthy rel then rel else none
    transaction_type := td.transaction_type
    shares := |td.shares|
    price_per_share := td.price_per_share
    total_value := td.total_value
    transaction_date := td.transaction_date.getD now
    is_large_transaction := td.is_large_transaction
    is_executive := td.is_executive
    extracted_at := some now
    extraction_error := none }

/-- The inner try block of extract_insider_transactions: resolve the object,
the identity and the transaction facts, then persist the record when it passes
the validity gate, or a placeholder carrying the diagnostic otherwise. -/
def insiderReprocess (s1 : Session) (fid : ℕ) (tf : TargetFiling)
    (now : PyDateTime) : Session :=
  match tf.form4obj with
  | .raised msg => create_empty_transaction s1 fid msg now
  | .ok form4 =>
      let idpair := resolveInsiderIdentity form4
      let nameOpt := idpair.1
      let titleOpt := idpair.2
      let rel := determine_insider_relationship titleOpt
      let td := extract_transaction_data form4 rel
      if td.shares ≠ 0 && td.transaction_type ≠ "UNKNOWN" then
        persistInsiderTransaction s1 (validInsiderRecord s1.nextId fid nameOpt titleOpt rel td now)
      else
        create_empty_transaction s1 fid
          ("No valid shares data found. Shares: " ++ toString td.shares ++
            ", Type: " ++ td.transaction_type) now

/-- Source extract_insider_transactions: no op when a valid record exists;
failed records are deleted and committed before reprocessing by the inner
block. -/
def extract_insider_transactions (s : Session) (fid : ℕ) (tf : TargetFiling)
    (now : PyDateTime) : Session :=
  let existing := transactionsFor (view s) fid
  let valid_existing := existing.filter (fun t => decide (t.shares > 0) && t.transaction_type ≠ "UNKNOWN")
  if !valid_existing.isEmpty then s
  else
    let s1 :=
      if !existing.isEmpty then
        sessCommit (pushOps s (existing.map (fun t => WriteOp.deleteTransaction t.id)))
      else s
    insiderReprocess s1 fid tf now

/-!
Embedding of corporate_events_extractor.py.
-/

/-- Truthiness aware or-chain over two optional strings, as the source
getattr(...) or getattr(...) idiom. -/
def firstTruthyStr (a b : Option String) : Option String :=
  if strOptTruthy a then a else b

/-- The event record built from the generic event object, field by field as
the source getattr chains resolve them. -/
def mkCorporateEvent (nid fid : ℕ) (ed : EventsData) (now : PyDateTime) : CorporateEventRec :=
  let event_type : String :=
    match firstTruthyStr ed.event_type ed.typeAlias with
    | some t => t
    | none => "CORPORATE_EVENT"
  let event_date :=
    match ed.event_date with
    | some d => some d
    | none => ed.dateAlias
  let effective_date :=
    match ed.effective_date with
    | some d => some d
    | none => ed.effectiveAlias
  let title := firstTruthyStr ed.title ed.subject
  let description := firstTruthyStr ed.description ed.summaryAlias
  let is_material := ed.is_material.getD true
  let affects_operations :=
    ed.affects_operations.getD
      (["CEO_CHANGE", "MERGER", "LAYOFFS", "RESTRUCTURING"].contains event_type)
  let affects_financials :=
    ed.affects_financials.getD
      (["EARNINGS", "DIVIDEND", "STOCK_SPLIT", "FINANCING"].contains event_type)
  { id := nid
    filing_id := fid
    event_type := event_type
    event_date := event_date
    effective_date := effective_date
    title := if strOptTruthy title then title else none
    description := if strOptTruthy description then description else none
    is_material := is_material
    affects_operations := affects_operations
    affects_financials := affects_financials
    extracted_at := some now
    extraction_error := none }

/-- Source extract_corporate_events: no op when any event exists; any failure
of the event object is swallowed and leaves no record; material by default. -/
def extract_corporate_events (s : Session) (fid : ℕ) (tf : TargetFiling)
    (now : PyDateTime) : Session :=
  if !(eventsFor (view s) fid).isEmpty then s
  else
    match tf.eventsObj with
    | none => s
    | some ed =>
      { pushOp s (.addEvent (mkCorporateEvent s.nextId fid ed now)) with
          nextId := s.nextId + 1 }

/-!
Embedding of summary_generators.py.
-/

/-- The dict a template generator returns. -/
structure SummaryDict where
  headline : String
  summaryText : String
  impact_analysis : String
  importance_score : ℚ
  event_category : String
  sentiment : String
  key_metrics : List (String × KMetric)
deriving DecidableEq, Repr

/-- Source generate_earnings_summary: sentiment and importance by truthiness
of revenue, net income and eps; display strings guard on None only. -/
def generate_earnings_summary (filing : FilingRec) (m : FinancialMetricsRec) : SummaryDict :=
  let sentimentScore : String × ℚ :=
    if optTruthy m.revenue && optTruthy m.net_income && optTruthy m.eps then
      ("POSITIVE", 0.8)
    else if optTruthy m.revenue || optTruthy m.net_income || optTruthy m.eps then
      ("NEUTRAL", 0.6)
    else
      ("NEUTRAL", 0.4)
  let revenue_str :=
    match m.revenue with
    | some v => "$" ++ formatPyFixed 1 (pyDivPos v (10 ^ 9)) ++ "B"
    | none => "N/A"
  let net_income_str :=
    match m.net_income with
    | some v => "$" ++ formatPyFixed 1 (pyDivPos v (10 ^ 9)) ++ "B"
    | none => "N/A"
  let eps_str :=
    match m.eps with
    | some v => "$" ++ formatPyFixed 2 v
    | none => "N/A"
  { headline := filing.form ++ " Filing - Financial Metrics Available"
    summaryText := "Company submitted " ++ filing.form ++
      " filing with financial data including revenue, net income, and EPS."
    impact_analysis :=
      "Financial filings provide transparency into company performance and compliance with regulatory requirements."
    importance_score := sentimentScore.2
    event_category := "EARNINGS"
    sentiment := sentimentScore.1
    key_metrics :=
      [("revenue", .str revenue_str), ("net_income", .str net_income_str),
       ("eps", .str eps_str)] }

/-- Source generate_insider_summary. -/
def generate_insider_summary (filing : FilingRec) (t : InsiderTransactionRec) : SummaryDict :=
  let is_bullish := t.transaction_type = "PURCHASE"
  let sentiment := if is_bullish then "POSITIVE" else "NEGATIVE"
  let importance_score : ℚ := if t.is_executive then 0.7 else 0.5
  -- the shares column is non nullable in the model, so the None guard of the
  -- source always takes the formatted branch
  let shares_str := commaFormat t.shares
  let price_str :=
    match t.price_per_share with
    | some p => "$" ++ formatPyFixed 2 p
    | none => "N/A"
  let value_str :=
    match t.total_value with
    | some v => "$" ++ formatPyFixed 1 (pyDivPos v (10 ^ 6)) ++ "M"
    | none => "N/A"
  let verb := lowerStr t.transaction_type
  { headline := t.insider_name ++ " " ++ verb ++ "s " ++ shares_str ++ " shares"
    summaryText := t.insider_name ++ " (" ++ (t.insider_title.getD "Unknown") ++ ") " ++
      verb ++ "ed " ++ shares_str ++ " shares at " ++ price_str ++ " per share."
    impact_analysis := "Insider " ++ verb ++
      "s can signal confidence in company direction and future performance."
    importance_score := importance_score
    event_category := "INSIDER_TRADE"
    sentiment := sentiment
    key_metrics :=
      [("shares", .str shares_str), ("value", .str value_str), ("price", .str price_str)] }

/-- Replace underscores by spaces, as the source str.replace call. -/
def underscoreToSpace (s : String) : String :=
  ⟨s.data.map (fun c => if c = '_' then ' ' else c)⟩

/-- Source generate_event_summary. -/
def generate_event_summary (filing : FilingRec) (e : CorporateEventRec) : SummaryDict :=
  let importance_score : ℚ := if e.is_material then 0.8 else 0.5
  let lowered := underscoreToSpace (lowerStr e.event_type)
  { headline := "Corporate Event: " ++ (e.title.getD e.event_type)
    summaryText := "Company announced " ++ lowered ++ ": " ++
      (e.description.getD "No description available") ++ "."
    impact_analysis := "This " ++ lowered ++
      " may impact company operations and future financial performance."
    importance_score := importance_score
    event_category := "CORPORATE_EVENT"
    sentiment := "NEUTRAL"
    key_metrics := [("event_type", .str e.event_type), ("is_material", .boolean e.is_material)] }

/-- Source generate_generic_summary. -/
def generate_generic_summary (filing : FilingRec) : SummaryDict :=
  { headline := filing.form ++ " Filing Submitted"
    summaryText := "Company submitted " ++ filing.form ++ " filing to SEC on " ++
      filing.filing_date.ymd ++ "."
    impact_analysis :=
      "Regular SEC filings provide transparency and compliance with regulatory requirements."
    importance_score := 0.3
    event_category := "REGULATORY"
    sentiment := "NEUTRAL"
    key_metrics :=
      [("filing_date", .str filing.filing_date.ymd), ("form_type", .str filing.form)] }

/-- Template routing of generate_filing_summary: first matching rule wins. -/
def pickSummary (filing : FilingRec) (fm : Option FinancialMetricsRec)
    (its : List InsiderTransactionRec) (evs : List CorporateEventRec) : SummaryDict :=
  match (if filing.form = "10-K" ∨ filing.form = "10-Q" then fm else none) with
  | some m => generate_earnings_summary filing m
  | none =>
    match (if filing.form = "4" ∨ filing.form = "4/A" then its.head? else none) with
    | some t => generate_insider_summary filing t
    | none =>
      match (if filing.form = "8-K" ∨ filing.form = "6-K" then evs.head? else none) with
      | some e => generate_event_summary filing e
      | none => generate_generic_summary filing

/-- Source generate_filing_summary: no op when a summary exists; otherwise
route on form type and extracted facts and persist the digest card. -/
def generate_filing_summary (s : Session) (fid : ℕ) (filing : FilingRec)
    (now : PyDateTime) : Session :=
  match (summariesFor (view s) fid).head? with
  | some _ => s
  | none =>
    let d := pickSummary filing (metricsFor (view s) fid).head?
      (transactionsFor (view s) fid) (eventsFor (view s) fid)
    let r : FilingSummaryRec :=
      { id := s.nextId
        filing_id := fid
        headline := d.headline
        summaryText := d.summaryText
        impact_analysis := d.impact_analysis
        importance_score := d.importance_score
        event_category := d.event_category
        sentiment := some d.sentiment
        key_metrics := d.key_metrics
        generated_at := some now
        model_version := some "1.0" }
    { pushOp s (.addSummary r) with nextId := s.nextId + 1 }

/-!
Embedding of content_worker.py, the processing orchestrator.
-/

/-- The extractor kinds of the processor registry. -/
inductive ProcKind where
  | metrics
  | insider
  | events
deriving DecidableEq, Repr

/-- Source get_filing_processor: the fixed form type registry. -/
def get_filing_processor (form : String) : Option ProcKind :=
  if form = "10-K" then some .metrics
  else if form = "10-Q" then some .metrics
  else if form = "4" then some .insider
  else if form = "4/A" then some .insider
  else if form = "8-K" then some .events
  else if form = "6-K" then some .events
  else none

/-- Source _process_filing_content: gateway resolution, processor dispatch,
summary generation, then the processed flags; the boolean is the status. -/
def process_filing_content_inner (s : Session) (filing : FilingRec) (g : Gateway)
    (now : PyDateTime) : Session × Bool :=
  if !g.companyOk then (s, false)
  else if !g.filingFound then (s, false)
  else
    let s1 :=
      match get_filing_processor filing.form with
      | some .metrics => extract_financial_metrics s filing.id g.tf now
      | some .insider => extract_insider_transactions s filing.id g.tf now
      | some .events => extract_corporate_events s filing.id g.tf now
      | none => s
    let s2 := generate_filing_summary s1 filing.id filing now
    (pushOp s2 (.setProcessed filing.id now), true)

/-- Outcome of one processing run: committed store, id counter, status,
message, and the commit log of the unit of work. -/
structure RunOutcome where
  db : Store
  nextId : ℕ
  ok : Bool
  message : Option String
  commits : List (List WriteOp)
deriving DecidableEq, Repr

/-- Source process_filing_content: load the filing, short circuit when already
processed, run the pipeline, then commit on success or roll back on error. -/
def process_filing_content (db : Store) (nid : ℕ) (fid : ℕ) (g : Gateway)
    (now : PyDateTime) : RunOutcome :=
  match findFiling db fid with
  | none => { db := db, nextId := nid, ok := false, message := some "Filing not found", commits := [] }
  | some filing =>
    if filing.is_processed then
      { db := db, nextId := nid, ok := true, message := some "Already processed", commits := [] }
    else
      let s0 : Session := { db := db, tx := [], commitLog := [], nextId := nid }
      let r := process_filing_content_inner s0 filing g now
      if r.2 then
        let s2 := sessCommit r.1
        { db := s2.db, nextId := s2.nextId, ok := true, message := none, commits := s2.commitLog }
      else
        let s2 := sessRollback r.1
        { db := s2.db, nextId := s2.nextId, ok := false, message := some "processing error",
          commits := s2.commitLog }

/-!
Spec side definitions and concrete contexts used by the claim theorems.
-/

/-- Key metrics lookup by display key. -/
def lookupKM (l : List (String × KMetric)) (k : String) : Option KMetric :=
  (l.find? (fun p => p.1 = k)).map (fun p => p.2)

/-- Spec side earnings sentiment, phrased over truthiness of the three facts. -/
def specEarningsSentiment (m : FinancialMetricsRec) : String :=
  if optTruthy m.revenue && optTruthy m.net_income && optTruthy m.eps then "POSITIVE"
  else "NEUTRAL"

/-- Spec side earnings importance, phrased over truthiness of the three facts. -/
def specEarningsImportance (m : FinancialMetricsRec) : ℚ :=
  if optTruthy m.revenue && optTruthy m.net_income && optTruthy m.eps then 0.8
  else if optTruthy m.revenue || optTruthy m.net_income || optTruthy m.eps then 0.6
  else 0.4

/-- A metrics record with all facts null, the base of the concrete contexts. -/
def emptyMetricsRec : FinancialMetricsRec :=
  { id := 0, filing_id := 0, revenue := none, net_income := none, eps := none
    total_assets := none, total_liabilities := none, cash_and_equivalents := none
    operating_cash_flow := none, extracted_at := none, extraction_error := none }

/-- A Form 4 object with every capability absent, the base of the contexts. -/
def emptyForm4 : Form4 :=
  { insider_name := none, position := none, reporting_owner_name := none
    reporting_owner_relationship := none, reporting_owners := none, shares_traded := none
    market_trades := none, toDf := none, reporting_period := none, filing_date := none }

/-- A filing handle with every capability failing, the base of the contexts. -/
def emptyTf : TargetFiling :=
  { statements := none, financialsObj := none, form4obj := .raised "obj failed"
    eventsObj := none }

/-- The fixed run instant of the concrete contexts. -/
def nowC : PyDateTime := ⟨"2024-06-01"⟩

/-- An unprocessed filing row parametrized by id and form. -/
def mkFiling (i : ℕ) (form : String) : FilingRec :=
  { id := i, cik := "320193", form := form, accession := "0001-24-000001"
    filing_date := ⟨"2024-05-30"⟩, is_processed := false, processed_at := none
    processing_error := none }

/-- A persisted invalid insider transaction, as the placeholder writer leaves. -/
def invalidTxRec (i : ℕ) (fid : ℕ) : InsiderTransactionRec :=
  { id := i, filing_id := fid, insider_name := "Unknown", insider_title := none
    insider_relationship := none, transaction_type := "UNKNOWN", shares := 0
    price_per_share := none, total_value := none, transaction_date := ⟨"2024-01-01"⟩
    is_large_transaction := false, is_executive := false, extracted_at := none
    extraction_error := some "No valid shares data found. Shares: 0, Type: UNKNOWN" }

/-- A market trade row with the given shares, price and code. -/
def mkTradeRow (sh : Option PyFloat) (pr : Option PyFloat) (code : Option String) : TradeRow :=
  { shares := sh, price := pr, date := none, transactionType := none, code := code }

/-- Context of C1: a form 4 filing with one invalid existing transaction and a
gateway whose object yields a valid purchase. -/
def c1Form4 : Form4 :=
  { emptyForm4 with
    insider_name := some "Jane Doe"
    position := some "Chief Executive Officer"
    market_trades := some [mkTradeRow (some (.fin 2000)) (some (.fin 50)) (some "P")] }

/-- Committed store of the C1 counterexample. -/
def c1Store : Store :=
  { filings := [mkFiling 1 "4"], metrics := [], transactions := [invalidTxRec 5 1]
    events := [], summaries := [] }

/-- Gateway of the C1 counterexample. -/
def c1Gw : Gateway :=
  { companyOk := true, filingFound := true, tf := { emptyTf with form4obj := .ok c1Form4 } }

/-- Store of the C1 witness: a periodic report filing. -/
def c1bStore : Store :=
  { filings := [mkFiling 2 "10-K"], metrics := [], transactions := [], events := []
    summaries := [] }

/-- Gateway of the C1 witness: metrics extraction fails into a placeholder. -/
def c1bGw : Gateway := { companyOk := true, filingFound := true, tf := emptyTf }

/-- Store of the C2 witness: one unprocessed periodic report filing. -/
def c2Store : Store :=
  { filings := [mkFiling 1 "10-K"], metrics := [], transactions := [], events := []
    summaries := [] }

/-- Session of the C3 witness: one invalid existing transaction, fresh ids. -/
def c3Sess : Session :=
  { db := { filings := [mkFiling 1 "4"], metrics := [], transactions := [invalidTxRec 5 1]
            events := [], summaries := [] }
    tx := [], commitLog := [], nextId := 10 }

/-- Filing of the C4 contexts. -/
def c4Filing : FilingRec := mkFiling 1 "10-K"

/-- Metrics of the C4 scenario: all three facts populated. -/
def c4mFull : FinancialMetricsRec :=
  { emptyMetricsRec with
    revenue := some (.fin 91000000000)
    net_income := some (.fin 23000000000)
    eps := some (.fin (155/100)) }

/-- Metrics of the C4 counterexample: all three facts present, revenue zero. -/
def c4mZero : FinancialMetricsRec :=
  { c4mFull with revenue := some (.fin 0) }

/-- Metrics with only revenue set, the missing fields scenario. -/
def c4mOnlyRevenue : FinancialMetricsRec :=
  { emptyMetricsRec with revenue := some (.fin 91000000000) }

/-- Form 4 object of the C5 scenario with shares 5000 at price 25. -/
def c5FormA : Form4 :=
  { emptyForm4 with market_trades := some [mkTradeRow (some (.fin 5000)) (some (.fin 25)) (some "P")] }

/-- Form 4 object of the C5 scenario with shares 2000 at price 50. -/
def c5FormB : Form4 :=
  { emptyForm4 with market_trades := some [mkTradeRow (some (.fin 2000)) (some (.fin 50)) (some "P")] }

/-- Form 4 object of the C6 scenario resolving the type from code G. -/
def c6Form : Form4 :=
  { emptyForm4 with market_trades := some [mkTradeRow (some (.fin 10)) none (some "G")] }

/-- Form 4 object of the C7 counterexample: grant code, no price anywhere. -/
def c7Form : Form4 :=
  { emptyForm4 with market_trades := some [mkTradeRow (some (.fin 100)) none (some "A")] }

/-- Statement frame of the C8 counterexample: one revenue row holding NaN. -/
def c8Df : DataFrame :=
  { columns := ["label", "2023"]
    rows := [{ label := "Revenue", cells := [("label", .vStr "Revenue"), ("2023", .vFloat .nan)] }] }

/-- Statement frame of the C8 witness: no coercible cell at all. -/
def c8DfInvalid : DataFrame :=
  { columns := ["label", "2023"]
    rows := [{ label := "Revenue", cells := [("label", .vStr "Revenue"), ("2023", .vStr "n/a")] },
             { label := "Net Income", cells := [("label", .vStr "Net Income"), ("2023", .vNone)] }] }

/-- Event object of the C9 witness: nothing specified beyond a title. -/
def c9Ed : EventsData :=
  { event_type := none, typeAlias := none, event_date := none, dateAlias := none
    effective_date := none, effectiveAlias := none, title := some "Item 5.02"
    subject := none, description := none, summaryAlias := none, is_material := none
    affects_operations := none, affects_financials := none }

/-- Session of the C9 witness. -/
def c9Sess : Session :=
  { db := { filings := [mkFiling 3 "8-K"], metrics := [], transactions := [], events := []
            summaries := [] }
    tx := [], commitLog := [], nextId := 0 }

/-- Store of the C9 orchestrator part: one unprocessed material event filing. -/
def c9Store : Store :=
  { filings := [mkFiling 3 "8-K"], metrics := [], transactions := [], events := []
    summaries := [] }

/-- Gateway of the C9 orchestrator part: the event object raises. -/
def c9Gw : Gateway := { companyOk := true, filingFound := true, tf := emptyTf }

/-- Metrics of the C10 scenario: all three facts present and exactly zero. -/
def c10mZero : FinancialMetricsRec :=
  { emptyMetricsRec with
    revenue := some (.fin 0)
    net_income := some (.fin 0)
    eps := some (.fin 0) }

/-!
Session and store lemmas shared by the claim proofs.
-/

/-- The view ignores the id counter. -/
theorem view_setNextId (s : Session) (n : ℕ) : view { s with nextId := n } = view s := rfl

/-- Splitting a write list splits its application. -/
theorem applyWrites_append (st : Store) (l1 l2 : List WriteOp) :
    applyWrites st (l1 ++ l2) = applyWrites (applyWrites st l1) l2 := by
  simp [applyWrites, List.foldl_append]

/-- Pushing a write makes it visible in the view. -/
theorem view_pushOp (s : Session) (op : WriteOp) : view (pushOp s op) = applyOp (view s) op := by
  simp [view, pushOp, applyWrites, List.foldl_append]

/-- Pushing writes makes them visible in the view. -/
theorem view_pushOps (s : Session) (l : List WriteOp) :
    view (pushOps s l) = applyWrites (view s) l := by
  simp [view, pushOps, applyWrites, List.foldl_append]

/-- Committing does not change the view. -/
theorem view_sessCommit (s : Session) : view (sessCommit s) = view s := by
  simp [view, sessCommit, applyWrites]

/-- The committed store after a commit is the previous view. -/
theorem db_sessCommit (s : Session) : (sessCommit s).db = view s := rfl

/-- A record write never touches the filing rows. -/
theorem applyOp_filings (st : Store) : ∀ op, IsRecordOp op → (applyOp st op).filings = st.filings
  | .addMetrics _, _ => rfl
  | .addTransaction _, _ => rfl
  | .deleteTransaction _, _ => rfl
  | .addEvent _, _ => rfl
  | .addSummary _, _ => rfl
  | .setProcessed _ _, h => h.elim
  | .setProcessingError _ _, h => h.elim

/-- Record writes never touch the filing rows. -/
theorem applyWrites_filings (ops : List WriteOp) :
    ∀ st : Store, (∀ op ∈ ops, IsRecordOp op) → (applyWrites st ops).filings = st.filings := by
  induction ops with
  | nil => intro st _; rfl
  | cons op rest ih =>
    intro st h
    have h1 : IsRecordOp op := h op (List.mem_cons_self op rest)
    have h2 : ∀ o ∈ rest, IsRecordOp o := fun o ho => h o (List.mem_cons_of_mem op ho)
    calc (applyWrites st (op :: rest)).filings
        = (applyWrites (applyOp st op) rest).filings := rfl
      _ = (applyOp st op).filings := ih (applyOp st op) h2
      _ = st.filings := applyOp_filings st op h1

/-- Filing lookup reads only the filing rows. -/
theorem findFiling_congr (st st' : Store) (fid : ℕ) (h : st.filings = st'.filings) :
    findFiling st fid = findFiling st' fid := by
  simp [findFiling, h]

/-- Marking one filing processed rewrites exactly its looked up row. -/
theorem find_markProcessed (l : List FilingRec) (fid : ℕ) (now : PyDateTime) :
    (l.map (fun f => if f.id = fid then { f with is_processed := true, processed_at := some now } else f)).find?
        (fun f => f.id = fid)
      = (l.find? (fun f => f.id = fid)).map
        (fun f => { f with is_processed := true, processed_at := some now }) := by
  induction l with
  | nil => rfl
  | cons f rest ih =>
    by_cases h : f.id = fid
    · simp [List.find?, h]
    · simp [List.find?, h, ih]

/-- Lookup after a processed mark. -/
theorem findFiling_setProcessed (st : Store) (fid : ℕ) (now : PyDateTime) :
    findFiling (applyOp st (.setProcessed fid now)) fid
      = (findFiling st fid).map
        (fun f => { f with is_processed := true, processed_at := some now }) :=
  find_markProcessed st.filings fid now

/-- The metrics extractor never commits and keeps the committed store. -/
theorem efm_db_log (s : Session) (fid : ℕ) (tf : TargetFiling) (now : PyDateTime) :
    (extract_financial_metrics s fid tf now).db = s.db ∧
      (extract_financial_metrics s fid tf now).commitLog = s.commitLog := by
  unfold extract_financial_metrics create_empty_metrics
  cases hh : (metricsFor (view s) fid).head? with
  | some m => exact ⟨rfl, rfl⟩
  | none =>
    cases hx : extract_metrics_from_xbrl tf with
    | some m => simp [pushOp]
    | none => cases ho : extract_metrics_from_obj tf <;> simp [pushOp]

/-- The metrics extractor leaves the filing rows of the view unchanged. -/
theorem efm_view_filings (s : Session) (fid : ℕ) (tf : TargetFiling) (now : PyDateTime) :
    (view (extract_financial_metrics s fid tf now)).filings = (view s).filings := by
  have hstep : ∀ (m : FinancialMetricsRec) (n : ℕ),
      (view { pushOp s (.addMetrics m) with nextId := n }).filings = (view s).filings := by
    intro m n
    rw [view_setNextId, view_pushOp]
    exact applyOp_filings (view s) _ trivial
  unfold extract_financial_metrics create_empty_metrics
  cases hh : (metricsFor (view s) fid).head? with
  | some m => rfl
  | none =>
    cases hx : extract_metrics_from_xbrl tf with
    | some m => exact hstep _ _
    | none => cases ho : extract_metrics_from_obj tf <;> exact hstep _ _

/-- The events extractor never commits and keeps the committed store. -/
theorem ece_db_log (s : Session) (fid : ℕ) (tf : TargetFiling) (now : PyDateTime) :
    (extract_corporate_events s fid tf now).db = s.db ∧
      (extract_corporate_events s fid tf now).commitLog = s.commitLog := by
  unfold extract_corporate_events
  split
  · exact ⟨rfl, rfl⟩
  · split <;> simp [pushOp]

/-- The events extractor leaves the filing rows of the view unchanged. -/
theorem ece_view_filings (s : Session) (fid : ℕ) (tf : TargetFiling) (now : PyDateTime) :
    (view (extract_corporate_events s fid tf now)).filings = (view s).filings := by
  unfold extract_corporate_events
  split
  · rfl
  · split
    · rfl
    · rw [view_setNextId, view_pushOp]
      exact applyOp_filings (view s) _ trivial

/-- The summary generator never commits and keeps the committed store. -/
theorem gfs_db_log (s : Session) (fid : ℕ) (filing : FilingRec) (now : PyDateTime) :
    (generate_filing_summary s fid filing now).db = s.db ∧
      (generate_filing_summary s fid filing now).commitLog = s.commitLog := by
  unfold generate_filing_summary
  split <;> simp [pushOp]

/-- The summary generator leaves the filing rows of the view unchanged. -/
theorem gfs_view_filings (s : Session) (fid : ℕ) (filing : FilingRec) (now : PyDateTime) :
    (view (generate_filing_summary s fid filing now)).filings = (view s).filings := by
  unfold generate_filing_summary
  split
  · rfl
  · rw [view_setNextId, view_pushOp]
    exact applyOp_filings (view s) _ trivial

/-- Delete writes are record writes. -/
theorem deletes_are_record (l : List InsiderTransactionRec) :
    ∀ op ∈ l.map (fun t => WriteOp.deleteTransaction t.id), IsRecordOp op := by
  intro op hop
  rcases List.mem_map.mp hop with ⟨t, _, rfl⟩
  trivial

/-- The inner block leaves the filing rows of the view unchanged. -/
theorem irp_view_filings (s1 : Session) (fid : ℕ) (tf : TargetFiling) (now : PyDateTime) :
    (view (insiderReprocess s1 fid tf now)).filings = (view s1).filings := by
  have hadd : ∀ (r : InsiderTransactionRec),
      (view (sessCommit { pushOp s1 (.addTransaction r) with nextId := s1.nextId + 1 })).filings
        = (view s1).filings := by
    intro r
    rw [view_sessCommit, view_setNextId, view_pushOp]
    exact applyOp_filings (view s1) _ trivial
  unfold insiderReprocess create_empty_transaction
  cases tf.form4obj with
  | raised msg => exact hadd _
  | ok form4 =>
    simp only
    split
    · exact hadd _
    · exact hadd _

/-- The insider extractor leaves the filing rows of the view unchanged. -/
theorem eit_view_filings (s : Session) (fid : ℕ) (tf : TargetFiling) (now : PyDateTime) :
    (view (extract_insider_transactions s fid tf now)).filings = (view s).filings := by
  unfold extract_insider_transactions
  simp only
  split
  · rfl
  · rw [irp_view_filings]
    split
    · rw [view_sessCommit, view_pushOps]
      exact applyWrites_filings _ (view s) (deletes_are_record _)
    · rfl

/-!
Claim theorems.
-/

/-- C4 counterexample: with revenue present but zero (and net income and eps
present), the claim predicts POSITIVE and 0.8 since all three are present, but
the generator classifies by truthiness and yields NEUTRAL and 0.6. -/
theorem c4_counterexample :
    (generate_earnings_summary c4Filing c4mZero).sentiment = "NEUTRAL" ∧
    (generate_earnings_summary c4Filing c4mZero).importance_score = 0.6 := by
  constructor <;> with_unfolding_all rfl

/-- C4 (amended): the earnings summary has sentiment POSITIVE and importance
0.8 when revenue, net income and eps are all truthy (present and nonzero),
NEUTRAL and 0.6 when only some are truthy, NEUTRAL and 0.4 when none are;
None monetary values render as N/A, and revenue 9.1e10 renders as 91.0B. -/
theorem c4_earnings_truthiness :
    (∀ (f : FilingRec) (m : FinancialMetricsRec),
       (generate_earnings_summary f m).sentiment = specEarningsSentiment m) ∧
    (∀ (f : FilingRec) (m : FinancialMetricsRec),
       (generate_earnings_summary f m).importance_score = specEarningsImportance m) ∧
    (∀ (f : FilingRec) (m : FinancialMetricsRec), m.revenue = none →
       lookupKM (generate_earnings_summary f m).key_metrics "revenue" = some (.str "N/A")) ∧
    (∀ (f : FilingRec) (m : FinancialMetricsRec), m.net_income = none →
       lookupKM (generate_earnings_summary f m).key_metrics "net_income" = some (.str "N/A")) ∧
    (∀ (f : FilingRec) (m : FinancialMetricsRec), m.eps = none →
       lookupKM (generate_earnings_summary f m).key_metrics "eps" = some (.str "N/A")) ∧
    lookupKM (generate_earnings_summary c4Filing c4mFull).key_metrics "revenue"
      = some (.str "$91.0B") ∧
    (generate_earnings_summary c4Filing c4mFull).sentiment = "POSITIVE" ∧
    (generate_earnings_summary c4Filing c4mFull).importance_score = 0.8 ∧
    (generate_earnings_summary c4Filing c4mOnlyRevenue).sentiment = "NEUTRAL" ∧
    (generate_earnings_summary c4Filing c4mOnlyRevenue).importance_score = 0.6 ∧
    lookupKM (generate_earnings_summary c4Filing c4mOnlyRevenue).key_metrics "net_income"
      = some (.str "N/A") := by
  refine ⟨?_, ?_, ?_, ?_, ?_, ?_, ?_, ?_, ?_, ?_, ?_⟩
  · intro f m
    simp only [generate_earnings_summary, specEarningsSentiment]
    by_cases h1 : (optTruthy m.revenue && optTruthy m.net_income && optTruthy m.eps) = true
    · simp [h1]
    · by_cases h2 : (optTruthy m.revenue || optTruthy m.net_income || optTruthy m.eps) = true <;>
        simp [h1, h2]
  · intro f m
    simp only [generate_earnings_summary, specEarningsImportance]
    by_cases h1 : (optTruthy m.revenue && optTruthy m.net_income && optTruthy m.eps) = true
    · simp [h1]
    · by_cases h2 : (optTruthy m.revenue || optTruthy m.net_income || optTruthy m.eps) = true <;>
        simp [h1, h2]
  · intro f m h
    simp only [generate_earnings_summary, h]
    rfl
  · intro f m h
    simp only [generate_earnings_summary, h]
    rfl
  · intro f m h
    simp only [generate_earnings_summary, h]
    rfl
  · with_unfolding_all rfl
  · with_unfolding_all rfl
  · with_unfolding_all rfl
  · with_unfolding_all rfl
  · with_unfolding_all rfl
  · with_unfolding_all rfl

/-- C4 witness: the N/A clause applied to the all null metrics record. -/
theorem c4_witness :
    lookupKM (generate_earnings_summary c4Filing emptyMetricsRec).key_metrics "revenue"
      = some (.str "N/A") :=
  c4_earnings_truthiness.2.2.1 c4Filing emptyMetricsRec rfl

/-- C10: a metrics record whose three facts are all exactly zero is classified
like an absent one (NEUTRAL, importance 0.4), while the display strings use a
None check and render the zeros as dollar figures rather than N/A. -/
theorem c10_zero_truthiness :
    (generate_earnings_summary c4Filing c10mZero).sentiment = "NEUTRAL" ∧
    (generate_earnings_summary c4Filing c10mZero).importance_score = 0.4 ∧
    lookupKM (generate_earnings_summary c4Filing c10mZero).key_metrics "revenue"
      = some (.str "$0.0B") ∧
    lookupKM (generate_earnings_summary c4Filing c10mZero).key_metrics "net_income"
      = some (.str "$0.0B") ∧
    lookupKM (generate_earnings_summary c4Filing c10mZero).key_metrics "eps"
      = some (.str "$0.00") := by
  refine ⟨?_, ?_, ?_, ?_, ?_⟩ <;> with_unfolding_all rfl

/-- Normal form of the large transaction flag: the truthiness conjunct of the
source expression is redundant. -/
theorem largeNorm (tv : Option PyFloat) (n : ℤ) :
    ((match tv with
      | some v => pyTruthy v && pyGt v 100000
      | none => false) || (decide (n ≠ 0) && decide (n > 10000))) =
    ((match tv with
      | some v => pyGt v 100000
      | none => false) || decide (n > 10000)) := by
  have h1 : (match tv with | some v => pyTruthy v && pyGt v 100000 | none => false)
      = (match tv with | some v => pyGt v 100000 | none => false) := by
    cases tv with
    | none => rfl
    | some v =>
      cases v with
      | fin q =>
        by_cases h : q > 100000
        · have hq : q ≠ 0 := ne_of_gt (lt_trans (by norm_num) h)
          simp [pyTruthy, pyGt, h, hq]
        · simp [pyTruthy, pyGt, h]
      | nan => rfl
      | inf => rfl
      | ninf => rfl
  have h2 : (decide (n ≠ 0) && decide (n > 10000)) = decide (n > 10000) := by
    by_cases h : n > 10000
    · have hn : n ≠ 0 := by omega
      simp [h, hn]
    · simp [h]
  rw [h1, h2]

/-- Normal form of the executive flag: the truthiness guard is redundant since
the empty relationship is not in the executive list. -/
theorem execNorm (rel : Option String) :
    (match rel with
     | some r => if r ≠ "" then execRelationships.contains r else false
     | none => false) =
    (match rel with
     | some r => execRelationships.contains r
     | none => false) := by
  cases rel with
  | none => rfl
  | some r =>
    by_cases hr : r = ""
    · subst hr; rfl
    · simp [hr]

/-- C5: the large transaction flag of an extracted transaction is set exactly
when the total value is strictly above 100000 or the share count is strictly
above 10000, and the executive flag exactly when the resolved relationship is
one of the five executive roles; 5000 shares at 25 give total 125000 and a set
flag, 2000 shares at 50 give total exactly 100000 and a clear flag. -/
theorem c5_significance_flags :
    (∀ (f : Form4) (rel : Option String),
      (extract_transaction_data f rel).is_large_transaction =
        ((match (extract_transaction_data f rel).total_value with
          | some v => pyGt v 100000
          | none => false) || decide ((extract_transaction_data f rel).shares > 10000))) ∧
    (∀ (f : Form4) (rel : Option String),
      (extract_transaction_data f rel).is_executive =
        (match rel with
         | some r => execRelationships.contains r
         | none => false)) ∧
    (extract_transaction_data c5FormA none).total_value = some (.fin 125000) ∧
    (extract_transaction_data c5FormA none).is_large_transaction = true ∧
    ((extract_transaction_data c5FormA none).shares ≤ 10000) ∧
    (extract_transaction_data c5FormB none).total_value = some (.fin 100000) ∧
    (extract_transaction_data c5FormB none).is_large_transaction = false := by
  refine ⟨?_, ?_, ?_, ?_, ?_, ?_, ?_⟩
  · intro f rel
    exact largeNorm _ _
  · intro f rel
    exact execNorm rel
  · with_unfolding_all rfl
  · with_unfolding_all rfl
  · show (5000 : ℤ) ≤ 10000
    norm_num
  · with_unfolding_all rfl
  · with_unfolding_all rfl

/-- C6: the transaction code table maps the seven known codes to their fixed
labels and any other code to its own uppercase form; in the extractor a first
row code G resolves the type to GIFT. -/
theorem c6_code_mapping :
    transactionTypeFromCode "P" = "PURCHASE" ∧
    transactionTypeFromCode "S" = "SALE" ∧
    transactionTypeFromCode "A" = "GRANT" ∧
    transactionTypeFromCode "M" = "EXERCISE" ∧
    transactionTypeFromCode "D" = "DISPOSITION" ∧
    transactionTypeFromCode "G" = "GIFT" ∧
    transactionTypeFromCode "V" = "VOLUNTARY" ∧
    (∀ c : String, c ∉ ["P", "S", "A", "M", "D", "G", "V"] →
      transactionTypeFromCode c = upperStr c) ∧
    (extract_transaction_data c6Form none).transaction_type = "GIFT" := by
  refine ⟨rfl, rfl, rfl, rfl, rfl, rfl, rfl, ?_, ?_⟩
  · intro c hc
    simp only [List.mem_cons, List.not_mem_nil, or_false, not_or] at hc
    obtain ⟨h1, h2, h3, h4, h5, h6, h7⟩ := hc
    simp [transactionTypeFromCode, h1, h2, h3, h4, h5, h6, h7]
  · with_unfolding_all rfl

/-- C6 witness: the uppercase fallback applied to the code Q. -/
theorem c6_witness : transactionTypeFromCode "Q" = upperStr "Q" :=
  c6_code_mapping.2.2.2.2.2.2.2.1 "Q" (by decide)

/-- C7 counterexample: a grant resolved from code A with no price in any
candidate source keeps price_per_share absent (None) rather than the claimed
default of 0.0. -/
theorem c7_counterexample :
    (extract_transaction_data c7Form none).transaction_type = "GRANT" ∧
    (extract_transaction_data c7Form none).price_per_share = none := by
  constructor <;> with_unfolding_all rfl

/-- C8 counterexample: a NaN float cell passes the numeric validity check, so
the extracted metric is NaN rather than being treated as absent. -/
theorem c8_counterexample :
    extract_metric c8Df ["Revenue", "Contract Revenue", "Sales Revenue"]
      = some PyFloat.nan := by
  with_unfolding_all rfl

/-- A column over rows whose cells are all invalid is never numeric. -/
theorem columnHasNumeric_of_invalid (c : String) (rows : List DFRow)
    (h : ∀ r ∈ rows, ∀ p ∈ r.cells, is_valid_numeric_value p.2 = false) :
    columnHasNumeric c rows = false := by
  induction rows with
  | nil => rfl
  | cons r rest ih =>
    have hr : ∀ p ∈ r.cells, is_valid_numeric_value p.2 = false :=
      h r (List.mem_cons_self r rest)
    have hrest : ∀ r2 ∈ rest, ∀ p ∈ r2.cells, is_valid_numeric_value p.2 = false :=
      fun r2 h2 => h r2 (List.mem_cons_of_mem r h2)
    cases hl : lookupCell r c with
    | none => simp [columnHasNumeric, hl]
    | some v =>
      have hv : is_valid_numeric_value v = false := by
        unfold lookupCell at hl
        cases hf : r.cells.find? (fun p => p.1 = c) with
        | none => rw [hf] at hl; simp at hl
        | some p =>
          rw [hf] at hl
          have hp2 : p.2 = v := by simpa using hl
          rw [← hp2]
          exact hr p (List.mem_of_find?_eq_some hf)
      simp [columnHasNumeric, hl, hv, ih hrest]

/-- A frame whose cells are all invalid has no numeric column. -/
theorem get_numeric_columns_of_invalid (df : DataFrame)
    (h : ∀ r ∈ df.rows, ∀ p ∈ r.cells, is_valid_numeric_value p.2 = false) :
    get_numeric_columns df = [] := by
  unfold get_numeric_columns
  refine List.filter_eq_nil.mpr ?_
  intro c _
  simp [columnHasNumeric_of_invalid c df.rows h]

/-- Metric search over a frame whose cells are all invalid yields None. -/
theorem extract_metric_of_invalid (df : DataFrame)
    (h : ∀ r ∈ df.rows, ∀ p ∈ r.cells, is_valid_numeric_value p.2 = false) :
    ∀ labels : List String, extract_metric df labels = none := by
  intro labels
  induction labels with
  | nil => rfl
  | cons l rest ih =>
    unfold extract_metric
    by_cases he : (df.rows.filter (fun r => containsCI r.label l)).isEmpty = true
    · simp [he, ih]
    · have hg : get_latest_numeric_value df
          (df.rows.filter (fun r => containsCI r.label l)) = none := by
        unfold get_latest_numeric_value
        rw [get_numeric_columns_of_invalid df h]
        rfl
      simp [he, hg, ih]

/-- C8 (amended): a value that is None, the empty string, or a string failing
the digit check is treated as absent (and a frame holding only such cells
yields no metric, never zero), but int and float values always pass the check,
including float NaN and infinity, which are therefore treated as present. -/
theorem c8_numeric_validity :
    (∀ (df : DataFrame) (labels : List String),
       (∀ r ∈ df.rows, ∀ p ∈ r.cells, is_valid_numeric_value p.2 = false) →
       extract_metric df labels = none) ∧
    is_valid_numeric_value (.vFloat .nan) = true ∧
    is_valid_numeric_value (.vFloat .inf) = true ∧
    is_valid_numeric_value .vNone = false ∧
    is_valid_numeric_value (.vStr "") = false ∧
    is_valid_numeric_value (.vStr "abc") = false := by
  refine ⟨fun df labels h => extract_metric_of_invalid df h labels, rfl, rfl, rfl, ?_, ?_⟩
  · with_unfolding_all rfl
  · with_unfolding_all rfl

/-- C8 witness: the all invalid clause applied to a concrete frame holding a
label string, a non numeric string and a None cell. -/
theorem c8_witness : extract_metric c8DfInvalid ["Revenue"] = none :=
  c8_numeric_validity.1 c8DfInvalid ["Revenue"] (by with_unfolding_all decide)

/-- Step one never touches the price. -/
theorem txFromSharesTraded_price (f : Form4) (a : TxAcc) :
    (txFromSharesTraded f a).price = a.price := by
  unfold txFromSharesTraded
  cases f.shares_traded <;> rfl

/-- Step four never touches the price. -/
theorem txSharesFallback_price (f : Form4) (a : TxAcc) :
    (txSharesFallback f a).price = a.price := by
  unfold txSharesFallback
  split
  · cases f.shares_traded <;> rfl
  · rfl

/-- The date fallback never touches the price. -/
theorem txDateFallback_price (f : Form4) (a : TxAcc) :
    (txDateFallback f a).price = a.price := rfl

/-- Step two keeps the price absent when the first trade row carries none. -/
theorem txFromMarketTrades_price_none (f : Form4) (a : TxAcc) (ha : a.price = none)
    (h1 : ∀ r l, f.market_trades = some (r :: l) → r.price = none) :
    (txFromMarketTrades f a).price = none := by
  unfold txFromMarketTrades
  cases hm : f.market_trades with
  | none => exact ha
  | some ml =>
    cases ml with
    | nil => exact ha
    | cons r l =>
      have hr := h1 r l hm
      simp [hr, ha, optTruthy]

/-- Step three keeps the price absent when the first export row carries none. -/
theorem txFromDataframe_price_none (f : Form4) (a : TxAcc) (ha : a.price = none)
    (h2 : ∀ df, f.toDf = some df → ∀ r l, df.rows = r :: l → r.price = none) :
    (txFromDataframe f a).price = none := by
  unfold txFromDataframe
  split
  · cases hd : f.toDf with
    | none => exact ha
    | some df =>
      cases hrows : df.rows with
      | nil => simp [hrows, ha]
      | cons r2 l2 =>
        have hr := h2 df hd r2 l2 hrows
        simp [hrows, hr, ha, optTruthy]
  · exact ha

/-- The sale sign fix never touches the price. -/
theorem txSaleAbs_price (a : TxAcc) : (txSaleAbs a).price = a.price := by
  unfold txSaleAbs
  split <;> rfl

/-- The persisted price is the converted price after the probe steps. -/
theorem etd_price (f : Form4) (rel : Option String) :
    (extract_transaction_data f rel).price_per_share
      = safe_float_conversion (txSaleAbs (txDateFallback f (txSharesFallback f
          (txFromDataframe f (txFromMarketTrades f (txFromSharesTraded f
            ⟨"UNKNOWN", .fin 0, none, none, none⟩)))))).price := rfl

/-- C7 (amended): when no candidate source carries a price, the extractor
leaves price_per_share absent (None), for GRANT like for every other resolved
type; the dead free text table parser is the only place with a 0.0 default. -/
theorem c7_no_price_default (f : Form4) (rel : Option String)
    (h1 : ∀ r l, f.market_trades = some (r :: l) → r.price = none)
    (h2 : ∀ df, f.toDf = some df → ∀ r l, df.rows = r :: l → r.price = none) :
    (extract_transaction_data f rel).price_per_share = none := by
  rw [etd_price, txSaleAbs_price, txDateFallback_price, txSharesFallback_price,
    txFromDataframe_price_none f _ (txFromMarketTrades_price_none f _
      (txFromSharesTraded_price f _) h1) h2]
  rfl

/-- C7 witness: the amended clause applied to the grant context with no price
in any source. -/
theorem c7_witness : (extract_transaction_data c7Form none).price_per_share = none :=
  c7_no_price_default c7Form none
    (by
      intro r l h
      have h2 : (some [mkTradeRow (some (.fin 100)) none (some "A")]
          : Option (List TradeRow)) = some (r :: l) := h
      injection h2 with h3
      injection h3 with h4 h5
      rw [← h4]
      rfl)
    (by intro df h; exact Option.noConfusion h)

/-- Membership after applying a batch of transaction deletes. -/
theorem mem_applyDeletes (l : List InsiderTransactionRec) :
    ∀ (st : Store) (t : InsiderTransactionRec),
      (t ∈ (applyWrites st (l.map (fun x => WriteOp.deleteTransaction x.id))).transactions ↔
        t ∈ st.transactions ∧ ∀ x ∈ l, t.id ≠ x.id) := by
  induction l with
  | nil =>
    intro st t
    simp [applyWrites]
  | cons x rest ih =>
    intro st t
    rw [List.map_cons,
      show applyWrites st (WriteOp.deleteTransaction x.id :: rest.map (fun y => WriteOp.deleteTransaction y.id))
        = applyWrites (applyOp st (.deleteTransaction x.id)) (rest.map (fun y => WriteOp.deleteTransaction y.id)) from rfl,
      ih]
    simp only [applyOp, List.mem_filter, List.forall_mem_cons]
    constructor
    · rintro ⟨⟨hmem, hne⟩, hrest⟩
      exact ⟨hmem, by simpa using hne, hrest⟩
    · rintro ⟨hmem, hne, hrest⟩
      exact ⟨⟨hmem, by simpa using hne⟩, hrest⟩

/-- Persisting a transaction appends exactly that record to the view. -/
theorem persist_trans (s1 : Session) (t : InsiderTransactionRec) :
    (view (persistInsiderTransaction s1 t)).transactions
      = (view s1).transactions ++ [t] := by
  unfold persistInsiderTransaction
  rw [view_sessCommit, view_setNextId, view_pushOp]
  rfl

/-- The inner block appends exactly one transaction, carrying the filing id
and the fresh id of the session. -/
theorem irp_view_transactions (s1 : Session) (fid : ℕ) (tf : TargetFiling) (now : PyDateTime) :
    ∃ r : InsiderTransactionRec,
      (view (insiderReprocess s1 fid tf now)).transactions
        = (view s1).transactions ++ [r] ∧ r.filing_id = fid ∧ r.id = s1.nextId := by
  unfold insiderReprocess create_empty_transaction
  cases tf.form4obj with
  | raised msg =>
    exact ⟨emptyInsiderRecord s1.nextId fid msg now, persist_trans s1 _, rfl, rfl⟩
  | ok form4 =>
    simp only
    split
    · exact ⟨validInsiderRecord s1.nextId fid (resolveInsiderIdentity form4).1
        (resolveInsiderIdentity form4).2
        (determine_insider_relationship (resolveInsiderIdentity form4).2)
        (extract_transaction_data form4
          (determine_insider_relationship (resolveInsiderIdentity form4).2)) now,
        persist_trans s1 _, rfl, rfl⟩
    · exact ⟨emptyInsiderRecord s1.nextId fid _ now, persist_trans s1 _, rfl, rfl⟩

/-- C3: the insider extractor is a no op when a valid transaction exists for
the filing, and when only invalid ones exist it deletes every one of them
before re-extracting, which leaves exactly one fresh record for the filing. -/
theorem c3_replace_on_failure :
    (∀ (s : Session) (fid : ℕ) (tf : TargetFiling) (now : PyDateTime)
       (t : InsiderTransactionRec), t ∈ transactionsFor (view s) fid →
       t.shares > 0 → t.transaction_type ≠ "UNKNOWN" →
       extract_insider_transactions s fid tf now = s) ∧
    (∀ (s : Session) (fid : ℕ) (tf : TargetFiling) (now : PyDateTime),
       (∀ t ∈ (view s).transactions, t.id < s.nextId) →
       transactionsFor (view s) fid ≠ [] →
       (∀ t ∈ transactionsFor (view s) fid,
          ¬(t.shares > 0 ∧ t.transaction_type ≠ "UNKNOWN")) →
       (∀ told ∈ transactionsFor (view s) fid,
          told ∉ (view (extract_insider_transactions s fid tf now)).transactions) ∧
       (transactionsFor (view (extract_insider_transactions s fid tf now)) fid).length = 1) := by
  constructor
  · intro s fid tf now t ht hpos htype
    have hmem : t ∈ List.filter
        (fun t => decide (t.shares > 0) && decide (t.transaction_type ≠ "UNKNOWN"))
        (transactionsFor (view s) fid) :=
      List.mem_filter.mpr ⟨ht, by simp [hpos, htype]⟩
    simp only [extract_insider_transactions]
    cases hfil : List.filter
        (fun t => decide (t.shares > 0) && decide (t.transaction_type ≠ "UNKNOWN"))
        (transactionsFor (view s) fid) with
    | nil => rw [hfil] at hmem; cases hmem
    | cons a as => rfl
  · intro s fid tf now hWF hne hinv
    have hvf : List.filter
        (fun t => decide (t.shares > 0) && decide (t.transaction_type ≠ "UNKNOWN"))
        (transactionsFor (view s) fid) = [] := by
      refine List.filter_eq_nil.mpr ?_
      intro t ht
      have h := hinv t ht
      by_cases h1 : t.shares > 0
      · have h2 : t.transaction_type = "UNKNOWN" := by
          by_contra h2
          exact h ⟨h1, h2⟩
        simp [h1, h2]
      · simp [h1]
    have hee : (transactionsFor (view s) fid).isEmpty = false := by
      cases hc : transactionsFor (view s) fid with
      | nil => exact absurd hc hne
      | cons a as => rfl
    have hres : extract_insider_transactions s fid tf now
        = insiderReprocess (sessCommit (pushOps s ((transactionsFor (view s) fid).map
            (fun t => WriteOp.deleteTransaction t.id)))) fid tf now := by
      simp only [extract_insider_transactions]
      rw [hvf, hee]
      rfl
    obtain ⟨r, hrtrans, hrfid, hrid⟩ :=
      irp_view_transactions (sessCommit (pushOps s ((transactionsFor (view s) fid).map
        (fun t => WriteOp.deleteTransaction t.id)))) fid tf now
    have hview1 : view (sessCommit (pushOps s ((transactionsFor (view s) fid).map
        (fun t => WriteOp.deleteTransaction t.id))))
        = applyWrites (view s) ((transactionsFor (view s) fid).map
            (fun t => WriteOp.deleteTransaction t.id)) := by
      rw [view_sessCommit, view_pushOps]
    have hnid : (sessCommit (pushOps s ((transactionsFor (view s) fid).map
        (fun t => WriteOp.deleteTransaction t.id)))).nextId = s.nextId := rfl
    constructor
    · intro told htold
      rw [hres, hrtrans, hview1]
      intro hmem
      rcases List.mem_append.mp hmem with hold | hnew
      · have hchar := (mem_applyDeletes (transactionsFor (view s) fid) (view s) told).mp hold
        exact hchar.2 told htold rfl
      · have : told = r := by simpa using hnew
        have hlt : told.id < s.nextId := by
          have : told ∈ (view s).transactions := (List.mem_filter.mp htold).1
          exact hWF told this
        rw [this, hrid, hnid] at hlt
        exact lt_irrefl _ hlt
    · show (List.filter (fun t => decide (t.filing_id = fid))
          (view (extract_insider_transactions s fid tf now)).transactions).length = 1
      rw [hres, hrtrans, List.filter_append, hview1]
      have hfilA : List.filter (fun t => decide (t.filing_id = fid))
          (applyWrites (view s) ((transactionsFor (view s) fid).map
            (fun t => WriteOp.deleteTransaction t.id))).transactions = [] := by
        refine List.filter_eq_nil.mpr ?_
        intro t ht hfid
        have hchar := (mem_applyDeletes (transactionsFor (view s) fid) (view s) t).mp ht
        have htex : t ∈ transactionsFor (view s) fid := by
          unfold transactionsFor
          exact List.mem_filter.mpr ⟨hchar.1, hfid⟩
        exact hchar.2 t htex rfl
      rw [hfilA]
      simp [hrfid]

/-- C3 witness: with a single invalid stored transaction and fresh ids, the
run removes the old record and leaves exactly one new one. -/
theorem c3_witness :
    ((transactionsFor (view (extract_insider_transactions c3Sess 1 emptyTf nowC)) 1).length = 1) ∧
    (invalidTxRec 5 1 ∉ (view (extract_insider_transactions c3Sess 1 emptyTf nowC)).transactions) := by
  have h := c3_replace_on_failure.2 c3Sess 1 emptyTf nowC
    (by with_unfolding_all decide)
    (by with_unfolding_all decide)
    (by with_unfolding_all decide)
  exact ⟨h.2, h.1 (invalidTxRec 5 1) (by with_unfolding_all decide)⟩

/-- A failing event object leaves the session untouched. -/
theorem ece_obj_none (s : Session) (fid : ℕ) (tf : TargetFiling) (now : PyDateTime)
    (h : tf.eventsObj = none) : extract_corporate_events s fid tf now = s := by
  unfold extract_corporate_events
  split
  · rfl
  · rw [h]

/-- Adding a summary record for a filing extends its summary list. -/
theorem summariesFor_addSummary (st : Store) (r : FilingSummaryRec) (fid : ℕ)
    (h : r.filing_id = fid) :
    summariesFor (applyOp st (.addSummary r)) fid = summariesFor st fid ++ [r] := by
  unfold summariesFor applyOp
  rw [List.filter_append]
  simp [h]

/-- The summary generator leaves the events of the view unchanged. -/
theorem gfs_view_events (s : Session) (fid : ℕ) (filing : FilingRec) (now : PyDateTime) :
    (view (generate_filing_summary s fid filing now)).events = (view s).events := by
  unfold generate_filing_summary
  split
  · rfl
  · rw [view_setNextId, view_pushOp]
    rfl

/-- After the summary generator runs, the filing always has a summary. -/
theorem gfs_summaries_nonempty (s : Session) (fid : ℕ) (filing : FilingRec) (now : PyDateTime) :
    summariesFor (view (generate_filing_summary s fid filing now)) fid ≠ [] := by
  unfold generate_filing_summary
  cases hh : (summariesFor (view s) fid).head? with
  | some r =>
    intro hcon
    rw [hcon] at hh
    cases hh
  | none =>
    rw [view_setNextId, view_pushOp, summariesFor_addSummary _ _ _ rfl]
    simp

/-- C9: corporate event extraction is best effort: a failing event object is
swallowed and leaves no record, the run still writes a digest card, and a
created event defaults is_material to true when the object does not carry it. -/
theorem c9_events_best_effort :
    (∀ (s : Session) (fid : ℕ) (tf : TargetFiling) (now : PyDateTime),
       tf.eventsObj = none → extract_corporate_events s fid tf now = s) ∧
    (∀ (s : Session) (fid : ℕ) (tf : TargetFiling) (now : PyDateTime) (ed : EventsData),
       tf.eventsObj = some ed → ed.is_material = none →
       eventsFor (view s) fid = [] →
       ∃ e : CorporateEventRec,
         eventsFor (view (extract_corporate_events s fid tf now)) fid = [e] ∧
         e.is_material = true) ∧
    (∀ (db : Store) (nid fid : ℕ) (g : Gateway) (now : PyDateTime) (f : FilingRec),
       findFiling db fid = some f → f.is_processed = false → f.form = "8-K" →
       g.companyOk = true → g.filingFound = true → g.tf.eventsObj = none →
       (process_filing_content db nid fid g now).ok = true ∧
       eventsFor (process_filing_content db nid fid g now).db fid = eventsFor db fid ∧
       summariesFor (process_filing_content db nid fid g now).db f.id ≠ []) := by
  refine ⟨ece_obj_none, ?_, ?_⟩
  · intro s fid tf now ed hobj hmat hempty
    unfold extract_corporate_events
    have hne : (eventsFor (view s) fid).isEmpty = true := by rw [hempty]; rfl
    rw [hne]
    simp only [Bool.not_true, Bool.false_eq_true, if_false, hobj]
    refine ⟨mkCorporateEvent s.nextId fid ed now, ?_, ?_⟩
    · rw [view_setNextId, view_pushOp]
      unfold eventsFor applyOp
      rw [List.filter_append]
      have : List.filter (fun e => decide (e.filing_id = fid)) (view s).events = [] := hempty
      rw [this]
      simp [mkCorporateEvent]
    · simp [mkCorporateEvent, hmat]
  · intro db nid fid g now f hf hun hform hc hff hev
    have hp : get_filing_processor "8-K" = some ProcKind.events := rfl
    have hinner : process_filing_content_inner
        { db := db, tx := [], commitLog := [], nextId := nid } f g now
        = (pushOp (generate_filing_summary
            { db := db, tx := [], commitLog := [], nextId := nid } f.id f now)
            (.setProcessed f.id now), true) := by
      unfold process_filing_content_inner
      rw [hc, hff]
      simp only [Bool.not_true, Bool.false_eq_true, if_false, hform, hp]
      rw [ece_obj_none _ _ _ _ hev]
    unfold process_filing_content
    rw [hf]
    simp only [hun, Bool.false_eq_true, if_false, hinner]
    refine ⟨rfl, ?_, ?_⟩
    · show eventsFor (sessCommit (pushOp (generate_filing_summary
          { db := db, tx := [], commitLog := [], nextId := nid } f.id f now)
          (.setProcessed f.id now))).db fid = eventsFor db fid
      rw [db_sessCommit, view_pushOp]
      unfold eventsFor
      rw [show (applyOp (view (generate_filing_summary
          { db := db, tx := [], commitLog := [], nextId := nid } f.id f now))
          (.setProcessed f.id now)).events
        = (view (generate_filing_summary
            { db := db, tx := [], commitLog := [], nextId := nid } f.id f now)).events from rfl]
      rw [gfs_view_events]
      rfl
    · show summariesFor (sessCommit (pushOp (generate_filing_summary
          { db := db, tx := [], commitLog := [], nextId := nid } f.id f now)
          (.setProcessed f.id now))).db f.id ≠ []
      rw [db_sessCommit, view_pushOp]
      have hsame : summariesFor (applyOp (view (generate_filing_summary
          { db := db, tx := [], commitLog := [], nextId := nid } f.id f now))
          (.setProcessed f.id now)) f.id
        = summariesFor (view (generate_filing_summary
            { db := db, tx := [], commitLog := [], nextId := nid } f.id f now)) f.id := rfl
      rw [hsame]
      exact gfs_summaries_nonempty _ _ _ _

/-- C9 witness: the extractor level clauses at concrete inputs, and a run over
a material event filing whose object raises: no event record, one card. -/
theorem c9_witness :
    (extract_corporate_events c9Sess 3 emptyTf nowC = c9Sess) ∧
    (eventsFor (process_filing_content c9Store 0 3 c9Gw nowC).db 3
      = eventsFor c9Store 3) ∧
    summariesFor (process_filing_content c9Store 0 3 c9Gw nowC).db 3 ≠ [] ∧
    (∀ e ∈ eventsFor (view (extract_corporate_events c9Sess 3
        { emptyTf with eventsObj := some c9Ed } nowC)) 3, e.is_material = true) := by
  have h3 := c9_events_best_effort.2.2 c9Store 0 3 c9Gw nowC (mkFiling 3 "8-K")
    (by with_unfolding_all rfl) rfl rfl rfl rfl rfl
  have h2 := c9_events_best_effort.2.1 c9Sess 3 { emptyTf with eventsObj := some c9Ed }
    nowC c9Ed rfl rfl (by with_unfolding_all rfl)
  refine ⟨c9_events_best_effort.1 c9Sess 3 emptyTf nowC rfl, h3.2.1, h3.2.2, ?_⟩
  obtain ⟨e, he, hm⟩ := h2
  intro x hx
  rw [he] at hx
  have : x = e := by simpa using hx
  rw [this]
  exact hm

/-- A gateway failure leaves the session untouched. -/
theorem inner_on_error (s : Session) (filing : FilingRec) (g : Gateway) (now : PyDateTime)
    (h : (process_filing_content_inner s filing g now).2 = false) :
    (process_filing_content_inner s filing g now).1 = s := by
  unfold process_filing_content_inner at *
  by_cases h1 : (!g.companyOk) = true
  · simp [h1]
  · by_cases h2 : (!g.filingFound) = true
    · simp [h1, h2]
    · simp [h1, h2] at h

/-- A successful inner run marks exactly the target filing processed. -/
theorem inner_filings (s : Session) (filing : FilingRec) (g : Gateway) (now : PyDateTime)
    (h : (process_filing_content_inner s filing g now).2 = true) :
    (view (process_filing_content_inner s filing g now).1).filings
      = (view s).filings.map (fun fl =>
          if fl.id = filing.id then
            { fl with is_processed := true, processed_at := some now }
          else fl) := by
  unfold process_filing_content_inner at *
  by_cases h1 : (!g.companyOk) = true
  · simp [h1] at h
  · by_cases h2 : (!g.filingFound) = true
    · simp [h1, h2] at h
    · simp only [h1, h2, Bool.false_eq_true, if_false]
      rw [view_pushOp]
      rw [show ∀ st : Store, (applyOp st (.setProcessed filing.id now)).filings
          = st.filings.map (fun fl =>
              if fl.id = filing.id then
                { fl with is_processed := true, processed_at := some now }
              else fl) from fun st => rfl]
      rw [gfs_view_filings]
      cases hp : get_filing_processor filing.form with
      | none => rfl
      | some pk =>
        cases pk with
        | metrics => rw [efm_view_filings]
        | insider => rw [eit_view_filings]
        | events => rw [ece_view_filings]

/-- With a non insider processor the inner run never commits mid run. -/
theorem inner_db_log (s : Session) (filing : FilingRec) (g : Gateway) (now : PyDateTime)
    (hni : get_filing_processor filing.form ≠ some ProcKind.insider) :
    (process_filing_content_inner s filing g now).1.db = s.db ∧
      (process_filing_content_inner s filing g now).1.commitLog = s.commitLog := by
  unfold process_filing_content_inner
  by_cases h1 : (!g.companyOk) = true
  · simp [h1]
  · by_cases h2 : (!g.filingFound) = true
    · simp [h1, h2]
    · simp only [h1, h2, Bool.false_eq_true, if_false]
      have hs1 : (match get_filing_processor filing.form with
          | some .metrics => extract_financial_metrics s filing.id g.tf now
          | some .insider => extract_insider_transactions s filing.id g.tf now
          | some .events => extract_corporate_events s filing.id g.tf now
          | none => s).db = s.db ∧
          (match get_filing_processor filing.form with
          | some .metrics => extract_financial_metrics s filing.id g.tf now
          | some .insider => extract_insider_transactions s filing.id g.tf now
          | some .events => extract_corporate_events s filing.id g.tf now
          | none => s).commitLog = s.commitLog := by
        cases hp : get_filing_processor filing.form with
        | none => exact ⟨rfl, rfl⟩
        | some pk =>
          cases pk with
          | metrics => exact efm_db_log _ _ _ _
          | insider => exact absurd hp hni
          | events => exact ece_db_log _ _ _ _
      constructor
      · show (generate_filing_summary _ filing.id filing now).db = s.db
        rw [(gfs_db_log _ _ _ _).1, hs1.1]
      · show (generate_filing_summary _ filing.id filing now).commitLog = s.commitLog
        rw [(gfs_db_log _ _ _ _).2, hs1.2]

/-- The element found by find? satisfies the predicate. -/
theorem find?_sat {α : Type} (p : α → Bool) : ∀ (l : List α) (a : α),
    l.find? p = some a → p a = true := by
  intro l a h
  induction l with
  | nil => cases h
  | cons x xs ih =>
    by_cases hx : p x
    · rw [List.find?_cons_of_pos _ hx] at h
      injection h with h2
      rw [← h2]
      exact hx
    · rw [List.find?_cons_of_neg _ (by simpa using hx)] at h
      exact ih h

/-- An already processed filing short circuits the whole run. -/
theorem process_already (db : Store) (nid fid : ℕ) (g : Gateway) (now : PyDateTime)
    (f : FilingRec) (hf : findFiling db fid = some f) (hproc : f.is_processed = true) :
    process_filing_content db nid fid g now
      = { db := db, nextId := nid, ok := true, message := some "Already processed",
          commits := [] } := by
  unfold process_filing_content
  rw [hf]
  simp [hproc]

/-- A successful run leaves the target filing marked processed in the store. -/
theorem process_sets_processed (db : Store) (nid fid : ℕ) (g : Gateway) (now : PyDateTime)
    (hok : (process_filing_content db nid fid g now).ok = true) :
    ∃ f', findFiling (process_filing_content db nid fid g now).db fid = some f' ∧
      f'.is_processed = true := by
  cases hf : findFiling db fid with
  | none =>
    have hout : process_filing_content db nid fid g now
        = { db := db, nextId := nid, ok := false, message := some "Filing not found",
            commits := [] } := by
      unfold process_filing_content
      rw [hf]
    rw [hout] at hok
    simp at hok
  | some f =>
    have hfid : f.id = fid := by
      have h := hf
      unfold findFiling at h
      have hp : (fun x : FilingRec => decide (x.id = fid)) f = true :=
        find?_sat (fun x : FilingRec => decide (x.id = fid)) db.filings f h
      exact of_decide_eq_true hp
    cases hproc : f.is_processed with
    | true =>
      rw [process_already db nid fid g now f hf hproc]
      exact ⟨f, hf, hproc⟩
    | false =>
      cases hr : (process_filing_content_inner
          { db := db, tx := [], commitLog := [], nextId := nid } f g now).2 with
      | false =>
        have hout : (process_filing_content db nid fid g now).ok = false := by
          unfold process_filing_content
          rw [hf]
          simp [hproc, hr]
        rw [hout] at hok
        cases hok
      | true =>
        have hdb : (process_filing_content db nid fid g now).db
            = (sessCommit (process_filing_content_inner
                { db := db, tx := [], commitLog := [], nextId := nid } f g now).1).db := by
          unfold process_filing_content
          rw [hf]
          simp [hproc, hr]
        rw [hdb, db_sessCommit]
        refine ⟨{ f with is_processed := true, processed_at := some now }, ?_, rfl⟩
        show (view (process_filing_content_inner
            { db := db, tx := [], commitLog := [], nextId := nid } f g now).1).filings.find?
            (fun x => x.id = fid) = _
        rw [inner_filings _ f g now hr]
        rw [show (view { db := db, tx := [], commitLog := [], nextId := nid }).filings
            = db.filings from rfl]
        rw [hfid, find_markProcessed db.filings fid now]
        rw [show db.filings.find? (fun x => decide (x.id = fid)) = findFiling db fid from rfl, hf]
        simp [hfid]

/-- C2: a processed filing makes the run an immediate success with no writes,
a second run after any successful run is such a no op, and every extractor and
the summary generator is a no op when its record already exists (a valid one,
for the insider extractor). -/
theorem c2_idempotent :
    (∀ (db : Store) (nid fid : ℕ) (g : Gateway) (now : PyDateTime) (f : FilingRec),
       findFiling db fid = some f → f.is_processed = true →
       process_filing_content db nid fid g now
         = { db := db, nextId := nid, ok := true, message := some "Already processed",
             commits := [] }) ∧
    (∀ (db : Store) (nid fid : ℕ) (g : Gateway) (now : PyDateTime),
       (process_filing_content db nid fid g now).ok = true →
       process_filing_content (process_filing_content db nid fid g now).db
           (process_filing_content db nid fid g now).nextId fid g now
         = { db := (process_filing_content db nid fid g now).db,
             nextId := (process_filing_content db nid fid g now).nextId,
             ok := true, message := some "Already processed", commits := [] }) ∧
    (∀ (s : Session) (fid : ℕ) (tf : TargetFiling) (now : PyDateTime)
       (m : FinancialMetricsRec), m ∈ metricsFor (view s) fid →
       extract_financial_metrics s fid tf now = s) ∧
    (∀ (s : Session) (fid : ℕ) (tf : TargetFiling) (now : PyDateTime)
       (e : CorporateEventRec), e ∈ eventsFor (view s) fid →
       extract_corporate_events s fid tf now = s) ∧
    (∀ (s : Session) (fid : ℕ) (filing : FilingRec) (now : PyDateTime)
       (r : FilingSummaryRec), r ∈ summariesFor (view s) fid →
       generate_filing_summary s fid filing now = s) ∧
    (∀ (s : Session) (fid : ℕ) (tf : TargetFiling) (now : PyDateTime)
       (t : InsiderTransactionRec), t ∈ transactionsFor (view s) fid →
       t.shares > 0 → t.transaction_type ≠ "UNKNOWN" →
       extract_insider_transactions s fid tf now = s) := by
  refine ⟨process_already, ?_, ?_, ?_, ?_, ?_⟩
  · intro db nid fid g now hok
    obtain ⟨f', hf', hp'⟩ := process_sets_processed db nid fid g now hok
    exact process_already _ _ _ _ _ _ hf' hp'
  · intro s fid tf now m hm
    unfold extract_financial_metrics
    cases hh : (metricsFor (view s) fid).head? with
    | some x => rfl
    | none =>
      rw [List.head?_eq_none_iff] at hh
      rw [hh] at hm
      cases hm
  · intro s fid tf now e he
    unfold extract_corporate_events
    cases hc : eventsFor (view s) fid with
    | nil => rw [hc] at he; cases he
    | cons a as => rfl
  · intro s fid filing now r hr
    unfold generate_filing_summary
    cases hh : (summariesFor (view s) fid).head? with
    | some x => rfl
    | none =>
      rw [List.head?_eq_none_iff] at hh
      rw [hh] at hr
      cases hr
  · intro s fid tf now t ht hpos htype
    have hmem : t ∈ List.filter
        (fun t => decide (t.shares > 0) && decide (t.transaction_type ≠ "UNKNOWN"))
        (transactionsFor (view s) fid) :=
      List.mem_filter.mpr ⟨ht, by simp [hpos, htype]⟩
    simp only [extract_insider_transactions]
    cases hfil : List.filter
        (fun t => decide (t.shares > 0) && decide (t.transaction_type ≠ "UNKNOWN"))
        (transactionsFor (view s) fid) with
    | nil => rw [hfil] at hmem; cases hmem
    | cons a as => rfl

/-- C2 witness: a concrete successful run over a fresh periodic report filing
followed by the second run, which changes nothing. -/
theorem c2_witness :
    (process_filing_content c2Store 0 1 c1bGw nowC).ok = true ∧
    process_filing_content (process_filing_content c2Store 0 1 c1bGw nowC).db
        (process_filing_content c2Store 0 1 c1bGw nowC).nextId 1 c1bGw nowC
      = { db := (process_filing_content c2Store 0 1 c1bGw nowC).db,
          nextId := (process_filing_content c2Store 0 1 c1bGw nowC).nextId,
          ok := true, message := some "Already processed", commits := [] } :=
  ⟨by with_unfolding_all rfl,
   c2_idempotent.2.1 c2Store 0 1 c1bGw nowC (by with_unfolding_all rfl)⟩

/-- C1 counterexample: a successful run over an ownership filing that held one
invalid transaction commits in three separate transactions (the delete of the
old record, the new record, then the summary and processed flags), so the
writes of the run are not one atomic unit and a failure after a mid run commit
could not roll them back. -/
theorem c1_counterexample :
    (process_filing_content c1Store 10 1 c1Gw nowC).ok = true ∧
    (process_filing_content c1Store 10 1 c1Gw nowC).commits.length = 3 ∧
    (process_filing_content c1Store 10 1 c1Gw nowC).commits.map List.length = [1, 1, 2] := by
  refine ⟨?_, ?_, ?_⟩ <;> with_unfolding_all rfl

/-- C1 (amended): for every run on a filing whose form is not an ownership
form (4 or 4/A), the unit of work is atomic: at most one commit happens, a
successful run commits exactly the writes of its single commit, and a failing
run leaves the committed store untouched; the insider extractor alone commits
mid run. -/
theorem c1_atomic_outside_insider (db : Store) (nid fid : ℕ) (g : Gateway)
    (now : PyDateTime) (f : FilingRec) (hf : findFiling db fid = some f)
    (h4 : f.form ≠ "4") (h4a : f.form ≠ "4/A") :
    (process_filing_content db nid fid g now).commits.length ≤ 1 ∧
    ((process_filing_content db nid fid g now).ok = true →
      (process_filing_content db nid fid g now).db
        = applyWrites db (process_filing_content db nid fid g now).commits.join) ∧
    ((process_filing_content db nid fid g now).ok = false →
      (process_filing_content db nid fid g now).db = db) := by
  cases hproc : f.is_processed with
  | true =>
    rw [process_already db nid fid g now f hf hproc]
    refine ⟨by simp, fun _ => by simp [applyWrites], fun hcon => by simp at hcon⟩
  | false =>
    have hni : get_filing_processor f.form ≠ some ProcKind.insider := by
      intro hcon
      unfold get_filing_processor at hcon
      split_ifs at hcon <;> simp_all
    have hinner := inner_db_log { db := db, tx := [], commitLog := [], nextId := nid }
      f g now hni
    cases hr : (process_filing_content_inner
        { db := db, tx := [], commitLog := [], nextId := nid } f g now).2 with
    | false =>
      have hout : process_filing_content db nid fid g now
          = { db := (sessRollback (process_filing_content_inner
                { db := db, tx := [], commitLog := [], nextId := nid } f g now).1).db,
              nextId := (sessRollback (process_filing_content_inner
                { db := db, tx := [], commitLog := [], nextId := nid } f g now).1).nextId,
              ok := false, message := some "processing error",
              commits := (sessRollback (process_filing_content_inner
                { db := db, tx := [], commitLog := [], nextId := nid } f g now).1).commitLog } := by
        unfold process_filing_content
        rw [hf]
        simp [hproc, hr]
      have hs : (process_filing_content_inner
          { db := db, tx := [], commitLog := [], nextId := nid } f g now).1
          = { db := db, tx := [], commitLog := [], nextId := nid } :=
        inner_on_error _ f g now hr
      rw [hout, hs]
      exact ⟨by simp [sessRollback], fun hcon => by simp at hcon, fun _ => rfl⟩
    | true =>
      have hout : process_filing_content db nid fid g now
          = { db := (sessCommit (process_filing_content_inner
                { db := db, tx := [], commitLog := [], nextId := nid } f g now).1).db,
              nextId := (sessCommit (process_filing_content_inner
                { db := db, tx := [], commitLog := [], nextId := nid } f g now).1).nextId,
              ok := true, message := none,
              commits := (sessCommit (process_filing_content_inner
                { db := db, tx := [], commitLog := [], nextId := nid } f g now).1).commitLog } := by
        unfold process_filing_content
        rw [hf]
        simp [hproc, hr]
      rw [hout]
      have hlog : (sessCommit (process_filing_content_inner
          { db := db, tx := [], commitLog := [], nextId := nid } f g now).1).commitLog
          = [(process_filing_content_inner
              { db := db, tx := [], commitLog := [], nextId := nid } f g now).1.tx] := by
        unfold sessCommit
        rw [hinner.2]
        rfl
      have hdb : (sessCommit (process_filing_content_inner
          { db := db, tx := [], commitLog := [], nextId := nid } f g now).1).db
          = applyWrites db (process_filing_content_inner
              { db := db, tx := [], commitLog := [], nextId := nid } f g now).1.tx := by
        unfold sessCommit
        rw [hinner.1]
      refine ⟨by rw [hlog]; simp, fun _ => ?_, fun hcon => by simp at hcon⟩
      rw [hlog, hdb]
      simp

/-- C1 witness: the atomicity clause applied to a concrete periodic report
run, which succeeds with exactly one commit holding all its writes. -/
theorem c1_witness :
    (process_filing_content c1bStore 0 2 c1bGw nowC).commits.length ≤ 1 ∧
    (process_filing_content c1bStore 0 2 c1bGw nowC).db
      = applyWrites c1bStore (process_filing_content c1bStore 0 2 c1bGw nowC).commits.join := by
  have h := c1_atomic_outside_insider c1bStore 0 2 c1bGw nowC (mkFiling 2 "10-K")
    (by with_unfolding_all rfl) (by with_unfolding_all decide) (by with_unfolding_all decide)
  exact ⟨h.1, h.2.1 (by with_unfolding_all rfl)⟩
